import Mathlib

/-
  Verification of the sensorless FOC estimation and feed-forward core:
  a shallow embedding of sto_speed_pos_fdbk.c and feed_forward_ctrl.c
  (signed 16/32-bit fixed-point arithmetic modelled over Int with the
  int16 casts made explicit), together with theorems about the embedded
  operations.
-/

namespace FOC

/-- Result of a cast to int16_t: wraps an integer into [-32768, 32767].
The percent sign on Int is Euclidean remainder, always nonnegative here. -/
def wrap16 (x : Int) : Int := (x + 32768) % 65536 - 32768

/-- Result of a cast of an int16 value to uint16_t: wraps into [0, 65535]. -/
def toUint16 (x : Int) : Int := x % 65536

/-- The SATURATION_TO_S16 macro of feed_forward_ctrl.c: symmetric clamp
to [-32767, 32767]. -/
def sat16 (x : Int) : Int := if x > 32767 then 32767 else if x < -32767 then -32767 else x

/-- Arithmetic right shift of a signed value by l bits.  On the target the
compilers implement signed right shift as floor division by 2 to the l;
Euclidean division by the positive constant 2 to the l is exactly that. -/
def sar (x : Int) (l : Nat) : Int := x / 2 ^ l

/-- C-style signed integer division: truncation toward zero. -/
def cdiv (a b : Int) : Int := Int.tdiv a b

/-- Output pair of MCM_Trig_Functions: sine and cosine of an s16 angle. -/
structure Trig_Components where
  hSin : Int
  hCos : Int
deriving DecidableEq

/-- Pair of currents in the alpha-beta or qd frame (mc_type.h). -/
structure Curr_Components where
  qI_Component1 : Int
  qI_Component2 : Int
deriving DecidableEq

/-- Pair of voltages in the alpha-beta or qd frame (mc_type.h). -/
structure Volt_Components where
  qV_Component1 : Int
  qV_Component2 : Int
deriving DecidableEq

/-- Inputs of the observer step (Observer_Inputs_t): measured alpha-beta
currents, commanded alpha-beta voltages and the instantaneous bus voltage. -/
structure Observer_Inputs where
  Ialfa_beta : Curr_Components
  Valfa_beta : Volt_Components
  Vbus : Int
deriving DecidableEq

/-- Base speed-position-feedback handle (the _Super sub-record of the STO
handle).  Field widths follow the source usage: s16 quantities are Int with
explicit casts at the assignment sites, unsigned error counters are Nat. -/
structure SpeednPosFdbk_Handle where
  hElAngle : Int
  hElSpeedDpp : Int
  hAvrMecSpeed01Hz : Int
  hMecAccel01HzP : Int
  hMeasurementFrequency : Int
  bElToMecRatio : Int
  hMaxReliableMecSpeed01Hz : Int
  bSpeedErrorNumber : Nat
  bMaximumSpeedErrorsNumber : Nat
deriving DecidableEq

/-- State of the STO component (STO_Handle_t).  The speed FIFO is a list of
length SpeedBufferSize01Hz; the PI regulator of the PLL is kept as an opaque
Int-coded state and the PI step itself is a parameter of the functions that
call it, since pid_regulator.c is outside the embedded sources. -/
structure STO_Handle where
  sSuper : SpeednPosFdbk_Handle
  hC1 : Int
  hC2 : Int
  hC3 : Int
  hC4 : Int
  hC5 : Int
  hC6 : Int
  hF1 : Int
  hF2 : Int
  hF3 : Int
  F1LOG : Nat
  F2LOG : Nat
  F3POW2 : Nat
  Ialfa_est : Int
  Ibeta_est : Int
  wBemf_alfa_est : Int
  wBemf_beta_est : Int
  hBemf_alfa_est : Int
  hBemf_beta_est : Int
  Speed_Buffer : List Int
  Speed_Buffer_Index : Nat
  SpeedBufferOldestEl : Int
  DppBufferSum : Int
  SpeedBufferSize01Hz : Nat
  SpeedBufferSizedpp : Nat
  SpeedBufferSizedppLOG : Nat
  VariancePercentage : Int
  IsSpeedReliable : Bool
  IsBemfConsistent : Bool
  IsAlgorithmConverged : Bool
  EnableDualCheck : Bool
  ForceConvergency : Bool
  ForceConvergency2 : Bool
  Obs_Bemf_Level : Int
  Est_Bemf_Level : Int
  MaxAppPositiveMecSpeed01Hz : Int
  BemfConsistencyGain : Int
  BemfConsistencyCheck : Int
  ReliabilityCounter : Nat
  Reliability_hysteresys : Nat
  ConsistencyCounter : Nat
  StartUpConsistThreshold : Nat
  MinStartUpValidSpeed : Int
  SpeedValidationBand_H : Int
  SpeedValidationBand_L : Int
  PIRegulator : Int
deriving DecidableEq

/-- State of the feed-forward component (FF_Handle_t).  The collaborator
handles stored at init (bus sensor, the two PI regulators) are opaque
identifiers; the reads that go through other modules are parameters of the
functions that perform them. -/
structure FF_Handle where
  pBus_Sensor : Nat
  pPID_d : Nat
  pPID_q : Nat
  wConstant_1D : Int
  wConstant_1Q : Int
  wConstant_2 : Int
  wDefConstant_1D : Int
  wDefConstant_1Q : Int
  wDefConstant_2 : Int
  Vqdff : Volt_Components
  VqdPIout : Volt_Components
  VqdAvPIout : Volt_Components
  hVqdLowPassFilterBW : Int
  hVqdLowPassFilterBWLOG : Nat
deriving DecidableEq

/-- FF_Init of feed_forward_ctrl.c: loads the default constants and stores
the collaborator handles. -/
def FF_Init (s : FF_Handle) (pBusSensor pPIDId pPIDIq : Nat) : FF_Handle :=
  { s with wConstant_1D := s.wDefConstant_1D
           wConstant_1Q := s.wDefConstant_1Q
           wConstant_2 := s.wDefConstant_2
           pBus_Sensor := pBusSensor
           pPID_d := pPIDId
           pPID_q := pPIDIq }

/-- FF_Clear of feed_forward_ctrl.c: zeroes the feed-forward voltage pair. -/
def FF_Clear (s : FF_Handle) : FF_Handle :=
  { s with Vqdff := { qV_Component1 := 0, qV_Component2 := 0 } }

/-- FF_VqdffComputation of feed_forward_ctrl.c.  busVoltageM1 is the value
returned by VBS_GetAvBusVoltage_d on the process-wide global pBusSensorM1
(the function reads the bus voltage through that global, not through the
pBus_Sensor handle stored in the FF state); hSpeed_dpp is the value the
speed-torque-controller chain returns for the electrical speed. -/
def FF_VqdffComputation (busVoltageM1 : Int) (hSpeed_dpp : Int)
    (s : FF_Handle) (Iqdref : Curr_Components) : FF_Handle :=
  let hAvBusVoltage_d := cdiv busVoltageM1 2
  let wtemp1q := cdiv (hSpeed_dpp * Iqdref.qI_Component2) 32768
  let wtemp2q := cdiv (wtemp1q * s.wConstant_1D) hAvBusVoltage_d * 2
  let wtemp1q2 := cdiv (s.wConstant_2 * hSpeed_dpp) hAvBusVoltage_d * 16
  let vq := sat16 (wtemp1q2 + wtemp2q + s.VqdAvPIout.qV_Component1)
  let wtemp1d := cdiv (hSpeed_dpp * Iqdref.qI_Component1) 32768
  let wtemp2d := cdiv (wtemp1d * s.wConstant_1Q) hAvBusVoltage_d * 2
  let vd := sat16 (s.VqdAvPIout.qV_Component2 - wtemp2d)
  { s with Vqdff := { qV_Component1 := wrap16 vq, qV_Component2 := wrap16 vd } }

/-- FF_VqdConditioning of feed_forward_ctrl.c: snapshots the PI output and
returns it with the feed-forward contribution added, each component
saturated. -/
def FF_VqdConditioning (s : FF_Handle) (Vqd : Volt_Components) :
    FF_Handle × Volt_Components :=
  let s1 := { s with VqdPIout := Vqd }
  let v1 := wrap16 (sat16 (Vqd.qV_Component1 + s.Vqdff.qV_Component1))
  let v2 := wrap16 (sat16 (Vqd.qV_Component2 + s.Vqdff.qV_Component2))
  (s1, { qV_Component1 := v1, qV_Component2 := v2 })

/-- Low-pass update of one component of VqdAvPIout, in the bit-shift form
compiled when FULL_MISRA_C_COMPLIANCY is not defined: the accumulator is
avg shifted left by LOG bits, minus avg, plus the PI output, shifted back
right by LOG bits and cast to int16. -/
def FF_lowPass_shift (avg vpi : Int) (l : Nat) : Int :=
  wrap16 (sar (avg * 2 ^ l - avg + vpi) l)

/-- Low-pass update of one component of VqdAvPIout, in the integer-division
form compiled under FULL_MISRA_C_COMPLIANCY. -/
def FF_lowPass_misra (avg vpi n : Int) : Int :=
  wrap16 (cdiv (avg * (n - 1) + vpi) n)

/-- FF_DataProcess of feed_forward_ctrl.c (bit-shift path): low-pass filters
VqdPIout into VqdAvPIout, component-wise. -/
def FF_DataProcess (s : FF_Handle) : FF_Handle :=
  let l := s.hVqdLowPassFilterBWLOG
  { s with VqdAvPIout :=
      { qV_Component1 := FF_lowPass_shift s.VqdAvPIout.qV_Component1 s.VqdPIout.qV_Component1 l
        qV_Component2 := FF_lowPass_shift s.VqdAvPIout.qV_Component2 s.VqdPIout.qV_Component2 l } }

/-- FF_InitFOCAdditionalMethods of feed_forward_ctrl.c restricted to the FF
state: zeroes VqdAvPIout (the PI integrators it also clears live in the
external PID component). -/
def FF_InitFOCAdditionalMethods (s : FF_Handle) : FF_Handle :=
  { s with VqdAvPIout := { qV_Component1 := 0, qV_Component2 := 0 } }

/-- FF_GetVqdff of feed_forward_ctrl.c. -/
def FF_GetVqdff (s : FF_Handle) : Volt_Components := s.Vqdff

/-- FF_GetVqdAvPIout of feed_forward_ctrl.c: the body returns the Vqdff
field (see line 325 of the source). -/
def FF_GetVqdAvPIout (s : FF_Handle) : Volt_Components := s.Vqdff

/-- STO_GetObserverGains of sto_speed_pos_fdbk.c. -/
def STO_GetObserverGains (s : STO_Handle) : Int × Int := (s.hC2, s.hC4)

/-- STO_SetObserverGains of sto_speed_pos_fdbk.c: the two arguments are
written into the hC2 and hC4 fields. -/
def STO_SetObserverGains (s : STO_Handle) (hhC1 hhC2 : Int) : STO_Handle :=
  { s with hC2 := hhC1, hC4 := hhC2 }

/-- Example FF state whose Vqdff and VqdAvPIout fields differ, used to
separate the two accessors. -/
def ffAccessorState : FF_Handle :=
  { pBus_Sensor := 0, pPID_d := 0, pPID_q := 0
    wConstant_1D := 0, wConstant_1Q := 0, wConstant_2 := 0
    wDefConstant_1D := 0, wDefConstant_1Q := 0, wDefConstant_2 := 0
    Vqdff := { qV_Component1 := 7, qV_Component2 := -7 }
    VqdPIout := { qV_Component1 := 0, qV_Component2 := 0 }
    VqdAvPIout := { qV_Component1 := 1, qV_Component2 := 2 }
    hVqdLowPassFilterBW := 4, hVqdLowPassFilterBWLOG := 2 }

/-- C8: the feed-forward voltage computed by FF_VqdffComputation does not
depend on the bus-sensor handle stored in the FF state: two states that
differ only in the pBus_Sensor field produce the same Vqdff whenever the
process-wide bus voltage read through the pBusSensorM1 global is the same,
because the function reads the bus voltage through that global and never
through the stored handle. -/
theorem ff_vqdff_ignores_stored_bus_handle
    (busVoltageM1 hSpeed_dpp : Int) (s : FF_Handle) (b : Nat)
    (Iqdref : Curr_Components) :
    (FF_VqdffComputation busVoltageM1 hSpeed_dpp { s with pBus_Sensor := b } Iqdref).Vqdff
      = (FF_VqdffComputation busVoltageM1 hSpeed_dpp s Iqdref).Vqdff := rfl

/-- C9: the accessor FF_GetVqdAvPIout returns the feed-forward voltage pair
Vqdff for every state, and on a state where the two fields differ it does
not return the low-pass-averaged PI output VqdAvPIout. -/
theorem ff_get_vqd_av_pi_out_returns_vqdff :
    (∀ s : FF_Handle, FF_GetVqdAvPIout s = s.Vqdff) ∧
      FF_GetVqdAvPIout ffAccessorState ≠ ffAccessorState.VqdAvPIout :=
  ⟨fun _ => rfl, by decide⟩

/-- C10: STO_SetObserverGains writes its first argument into gain C2 and its
second into gain C4, leaves every other field of the observer state
unchanged, and a subsequent STO_GetObserverGains returns exactly the pair
that was set. -/
theorem sto_set_observer_gains_writes_c2_c4
    (s : STO_Handle) (g1 g2 : Int) :
    (STO_SetObserverGains s g1 g2).hC2 = g1 ∧
    (STO_SetObserverGains s g1 g2).hC4 = g2 ∧
    (STO_SetObserverGains s g1 g2).sSuper = s.sSuper ∧
    (STO_SetObserverGains s g1 g2).hC1 = s.hC1 ∧
    (STO_SetObserverGains s g1 g2).hC3 = s.hC3 ∧
    (STO_SetObserverGains s g1 g2).hC5 = s.hC5 ∧
    (STO_SetObserverGains s g1 g2).hC6 = s.hC6 ∧
    (STO_SetObserverGains s g1 g2).hF1 = s.hF1 ∧
    (STO_SetObserverGains s g1 g2).hF2 = s.hF2 ∧
    (STO_SetObserverGains s g1 g2).hF3 = s.hF3 ∧
    (STO_SetObserverGains s g1 g2).F1LOG = s.F1LOG ∧
    (STO_SetObserverGains s g1 g2).F2LOG = s.F2LOG ∧
    (STO_SetObserverGains s g1 g2).F3POW2 = s.F3POW2 ∧
    (STO_SetObserverGains s g1 g2).Ialfa_est = s.Ialfa_est ∧
    (STO_SetObserverGains s g1 g2).Ibeta_est = s.Ibeta_est ∧
    (STO_SetObserverGains s g1 g2).wBemf_alfa_est = s.wBemf_alfa_est ∧
    (STO_SetObserverGains s g1 g2).wBemf_beta_est = s.wBemf_beta_est ∧
    (STO_SetObserverGains s g1 g2).hBemf_alfa_est = s.hBemf_alfa_est ∧
    (STO_SetObserverGains s g1 g2).hBemf_beta_est = s.hBemf_beta_est ∧
    (STO_SetObserverGains s g1 g2).Speed_Buffer = s.Speed_Buffer ∧
    (STO_SetObserverGains s g1 g2).Speed_Buffer_Index = s.Speed_Buffer_Index ∧
    (STO_SetObserverGains s g1 g2).SpeedBufferOldestEl = s.SpeedBufferOldestEl ∧
    (STO_SetObserverGains s g1 g2).DppBufferSum = s.DppBufferSum ∧
    (STO_SetObserverGains s g1 g2).SpeedBufferSize01Hz = s.SpeedBufferSize01Hz ∧
    (STO_SetObserverGains s g1 g2).SpeedBufferSizedpp = s.SpeedBufferSizedpp ∧
    (STO_SetObserverGains s g1 g2).SpeedBufferSizedppLOG = s.SpeedBufferSizedppLOG ∧
    (STO_SetObserverGains s g1 g2).VariancePercentage = s.VariancePercentage ∧
    (STO_SetObserverGains s g1 g2).IsSpeedReliable = s.IsSpeedReliable ∧
    (STO_SetObserverGains s g1 g2).IsBemfConsistent = s.IsBemfConsistent ∧
    (STO_SetObserverGains s g1 g2).IsAlgorithmConverged = s.IsAlgorithmConverged ∧
    (STO_SetObserverGains s g1 g2).EnableDualCheck = s.EnableDualCheck ∧
    (STO_SetObserverGains s g1 g2).ForceConvergency = s.ForceConvergency ∧
    (STO_SetObserverGains s g1 g2).ForceConvergency2 = s.ForceConvergency2 ∧
    (STO_SetObserverGains s g1 g2).Obs_Bemf_Level = s.Obs_Bemf_Level ∧
    (STO_SetObserverGains s g1 g2).Est_Bemf_Level = s.Est_Bemf_Level ∧
    (STO_SetObserverGains s g1 g2).MaxAppPositiveMecSpeed01Hz = s.MaxAppPositiveMecSpeed01Hz ∧
    (STO_SetObserverGains s g1 g2).BemfConsistencyGain = s.BemfConsistencyGain ∧
    (STO_SetObserverGains s g1 g2).BemfConsistencyCheck = s.BemfConsistencyCheck ∧
    (STO_SetObserverGains s g1 g2).ReliabilityCounter = s.ReliabilityCounter ∧
    (STO_SetObserverGains s g1 g2).Reliability_hysteresys = s.Reliability_hysteresys ∧
    (STO_SetObserverGains s g1 g2).ConsistencyCounter = s.ConsistencyCounter ∧
    (STO_SetObserverGains s g1 g2).StartUpConsistThreshold = s.StartUpConsistThreshold ∧
    (STO_SetObserverGains s g1 g2).MinStartUpValidSpeed = s.MinStartUpValidSpeed ∧
    (STO_SetObserverGains s g1 g2).SpeedValidationBand_H = s.SpeedValidationBand_H ∧
    (STO_SetObserverGains s g1 g2).SpeedValidationBand_L = s.SpeedValidationBand_L ∧
    (STO_SetObserverGains s g1 g2).PIRegulator = s.PIRegulator ∧
    STO_GetObserverGains (STO_SetObserverGains s g1 g2) = (g1, g2) := by
  refine ⟨rfl, rfl, rfl, rfl, rfl, rfl, rfl, rfl, rfl, rfl, rfl, rfl, rfl, rfl,
    rfl, rfl, rfl, rfl, rfl, rfl, rfl, rfl, rfl, rfl, rfl, rfl, rfl, rfl, rfl,
    rfl, rfl, rfl, rfl, rfl, rfl, rfl, rfl, rfl, rfl, rfl, rfl, rfl, rfl, rfl,
    rfl, rfl, rfl⟩

/-- Dual-path decimation of a scaled estimate, bit-shift form (the branch
compiled when FULL_MISRA_C_COMPLIANCY is not defined), as in the divisions
by F1, F2 and F3 of STO_CalcElAngle. -/
def STO_decimate_shift (x : Int) (l : Nat) : Int := sar x l

/-- Dual-path decimation of a scaled estimate, integer-division form (the
FULL_MISRA_C_COMPLIANCY branch). -/
def STO_decimate_misra (x f : Int) : Int := cdiv x f

/-- Voltage reconstruction of STO_CalcElAngle, bit-shift form:
the bus voltage times the commanded voltage, shifted right by 16. -/
def STO_voltRecon_shift (vbus vcmd : Int) : Int := wrap16 (sar (vbus * vcmd) 16)

/-- Voltage reconstruction of STO_CalcElAngle, integer-division form. -/
def STO_voltRecon_misra (vbus vcmd : Int) : Int := wrap16 (cdiv (vbus * vcmd) 65536)

/-- Average of STO_CalcAvrgElSpeedDpp, bit-shift form: the rolling sum
shifted right by SpeedBufferSizedppLOG and cast to int16. -/
def STO_avgDpp_shift (su : Int) (l : Nat) : Int := wrap16 (sar su l)

/-- Average of STO_CalcAvrgElSpeedDpp, integer-division form. -/
def STO_avgDpp_misra (su n : Int) : Int := wrap16 (cdiv su n)

/-- Casting to int16 is the identity on values already in int16 range. -/
theorem wrap16_eq_self {x : Int} (h1 : -32768 ≤ x) (h2 : x ≤ 32767) :
    wrap16 x = x := by
  unfold wrap16
  omega

/-- Truncating division by a positive divisor equals floor division, or
exceeds it by exactly one (on negative non-multiples). -/
theorem tdiv_ediv_cases (x : Int) {b : Int} (hb : 0 < b) :
    Int.tdiv x b = x / b ∨ Int.tdiv x b = x / b + 1 := by
  rcases le_or_lt 0 x with hx | hx
  · exact Or.inl (Int.tdiv_eq_ediv hx hb.le)
  · have hm : (0:Int) ≤ -x := by omega
    have htd : Int.tdiv x b = -((-x) / b) := by
      have h1 : Int.tdiv (-(-x)) b = -Int.tdiv (-x) b := Int.neg_tdiv (-x) b
      have h2 : Int.tdiv (-x) b = (-x) / b := Int.tdiv_eq_ediv hm hb.le
      simpa [h2] using h1
    set q := (-x) / b with hq
    set r := (-x) % b with hr
    have hspec : b * q + r = -x := Int.ediv_add_emod (-x) b
    have hr0 : 0 ≤ r := Int.emod_nonneg (-x) (by omega)
    have hrb : r < b := Int.emod_lt_of_pos (-x) hb
    rcases eq_or_lt_of_le hr0 with hz | hpos
    · left
      have hxe : x = b * (-q) := by linear_combination hspec + hz
      have hdiv : x / b = -q := by
        rw [hxe]; exact Int.mul_ediv_cancel_left (-q) (by omega)
      omega
    · right
      have hxe : x = (b - r) + (-q - 1) * b := by linear_combination hspec
      have hdiv : x / b = (b - r) / b + (-q - 1) := by
        rw [hxe]; exact Int.add_mul_ediv_right (b - r) (-q - 1) (by omega)
      have hz : (b - r) / b = 0 := Int.ediv_eq_zero_of_lt (by omega) (by omega)
      omega

/-- C4, amended: each dual-path operation produces identical results in its
two forms whenever the dividend is nonnegative, and also whenever the
power-of-two divisor exactly divides the dividend; in general the
integer-division form equals the bit-shift form or exceeds it by exactly
one, the shift rounding toward minus infinity and the division toward
zero. -/
theorem dual_paths_agree_on_nonneg :
    (∀ (x : Int) (l : Nat), 0 ≤ x →
        STO_decimate_misra x (2 ^ l) = STO_decimate_shift x l) ∧
    (∀ vbus vcmd : Int, 0 ≤ vbus * vcmd →
        STO_voltRecon_misra vbus vcmd = STO_voltRecon_shift vbus vcmd) ∧
    (∀ (su : Int) (l : Nat), 0 ≤ su →
        STO_avgDpp_misra su (2 ^ l) = STO_avgDpp_shift su l) ∧
    (∀ (avg vpi : Int) (l : Nat), 0 ≤ avg * (2 ^ l - 1) + vpi →
        FF_lowPass_misra avg vpi (2 ^ l) = FF_lowPass_shift avg vpi l) ∧
    (∀ (x : Int) (l : Nat), (2:Int) ^ l ∣ x →
        STO_decimate_misra x (2 ^ l) = STO_decimate_shift x l) ∧
    (∀ (x : Int) (l : Nat),
        STO_decimate_misra x (2 ^ l) = STO_decimate_shift x l ∨
        STO_decimate_misra x (2 ^ l) = STO_decimate_shift x l + 1) := by
  have hpow : ∀ l : Nat, (0:Int) < 2 ^ l := fun l => pow_pos (by norm_num) l
  refine ⟨?_, ?_, ?_, ?_, ?_, ?_⟩
  · intro x l hx
    simp only [STO_decimate_misra, STO_decimate_shift, cdiv, sar]
    exact Int.tdiv_eq_ediv hx (hpow l).le
  · intro vbus vcmd h
    simp only [STO_voltRecon_misra, STO_voltRecon_shift, cdiv, sar]
    have : (65536:Int) = 2 ^ 16 := by norm_num
    rw [this, Int.tdiv_eq_ediv h (hpow 16).le]
  · intro su l h
    simp only [STO_avgDpp_misra, STO_avgDpp_shift, cdiv, sar]
    rw [Int.tdiv_eq_ediv h (hpow l).le]
  · intro avg vpi l h
    simp only [FF_lowPass_misra, FF_lowPass_shift, cdiv, sar]
    have hnum : avg * (2 ^ l - 1) + vpi = avg * 2 ^ l - avg + vpi := by ring
    rw [hnum] at h ⊢
    rw [Int.tdiv_eq_ediv h (hpow l).le]
  · intro x l h
    simp only [STO_decimate_misra, STO_decimate_shift, cdiv, sar]
    exact Int.tdiv_eq_ediv_of_dvd h
  · intro x l
    simp only [STO_decimate_misra, STO_decimate_shift, cdiv, sar]
    exact tdiv_ediv_cases x (hpow l)

/-- C4, counterexample: on the negative non-multiple operand -3 with the
power-of-two divisor 2 the two forms of the decimation differ: the
integer-division form gives -1 while the bit-shift form gives -2. -/
theorem dual_paths_differ_on_negative :
    STO_decimate_misra (-3) (2 ^ 1) ≠ STO_decimate_shift (-3) 1 := by decide

/-- Witness: the amended dual-path equivalence evaluated at concrete
operands, with every hypothesis discharged at that point. -/
theorem dual_paths_agree_on_nonneg_witness :
    STO_decimate_misra 13 (2 ^ 2) = STO_decimate_shift 13 2 ∧
    FF_lowPass_misra 5 3 (2 ^ 2) = FF_lowPass_shift 5 3 2 := by
  exact ⟨dual_paths_agree_on_nonneg.1 13 2 (by decide),
    (dual_paths_agree_on_nonneg.2.2.2.1) 5 3 2 (by decide)⟩

/-- Error of the q component of the low-pass filter: distance from the
averaged PI output to the PI output it tracks. -/
def ffErr1 (s : FF_Handle) : Int := s.VqdPIout.qV_Component1 - s.VqdAvPIout.qV_Component1

/-- Error of the d component of the low-pass filter. -/
def ffErr2 (s : FF_Handle) : Int := s.VqdPIout.qV_Component2 - s.VqdAvPIout.qV_Component2

/-- Effective low-pass bandwidth N of an FF state: two to the power of the
configured shift amount. -/
def ffBW (s : FF_Handle) : Int := 2 ^ s.hVqdLowPassFilterBWLOG

/-- On int16-range operands the shift-form low-pass step computes
avg plus the floor of (vpi - avg) / 2 to the l, with no wrap. -/
theorem FF_lowPass_shift_eq (avg vpi : Int) (l : Nat)
    (h1 : -32768 ≤ avg) (h2 : avg ≤ 32767)
    (h3 : -32768 ≤ vpi) (h4 : vpi ≤ 32767) :
    FF_lowPass_shift avg vpi l = avg + (vpi - avg) / 2 ^ l := by
  have hb : (0:Int) < 2 ^ l := pow_pos (by norm_num) l
  have hone : (1:Int) ≤ 2 ^ l := hb
  have hnum : avg * 2 ^ l - avg + vpi = (vpi - avg) + avg * 2 ^ l := by ring
  have hdiv : (avg * 2 ^ l - avg + vpi) / 2 ^ l = (vpi - avg) / 2 ^ l + avg := by
    rw [hnum]; exact Int.add_mul_ediv_right (vpi - avg) avg (by omega)
  have hlo : -32768 * 2 ^ l ≤ avg * 2 ^ l - avg + vpi := by
    nlinarith [mul_nonneg (by omega : (0:Int) ≤ avg + 32768) (by omega : (0:Int) ≤ 2 ^ l - 1)]
  have hhi : avg * 2 ^ l - avg + vpi ≤ 32767 * 2 ^ l := by
    nlinarith [mul_nonneg (by omega : (0:Int) ≤ 32767 - avg) (by omega : (0:Int) ≤ 2 ^ l - 1)]
  have hql : (-32768 : Int) ≤ (avg * 2 ^ l - avg + vpi) / 2 ^ l := by
    have h := Int.ediv_le_ediv hb hlo
    rwa [Int.mul_ediv_cancel _ (by omega : (2:Int) ^ l ≠ 0)] at h
  have hqu : (avg * 2 ^ l - avg + vpi) / 2 ^ l ≤ 32767 := by
    have h := Int.ediv_le_ediv hb hhi
    rwa [Int.mul_ediv_cancel _ (by omega : (2:Int) ^ l ≠ 0)] at h
  unfold FF_lowPass_shift sar
  rw [wrap16_eq_self hql hqu, hdiv, add_comm]

/-- One step of the error recursion e to e - floor(e/n) never overshoots
zero and never grows the error, from either side. -/
theorem errStep_monotone {e n : Int} (hn : 0 < n) :
    (0 ≤ e → 0 ≤ e - e / n ∧ e - e / n ≤ e) ∧
    (e ≤ 0 → e ≤ e - e / n ∧ e - e / n ≤ 0) := by
  constructor
  · intro he
    have hd1 : 0 ≤ e / n := Int.ediv_nonneg he hn.le
    have hd2 : e / n ≤ e := Int.ediv_le_self n he
    omega
  · intro he
    have h1 : e / n ≤ 0 := by
      have h := Int.ediv_le_ediv hn he
      simpa using h
    have h2 : e ≤ e / n := by
      have hs : n * (e / n) + e % n = e := Int.ediv_add_emod e n
      have hr0 : 0 ≤ e % n := Int.emod_nonneg e (by omega)
      have hrn : e % n < n := Int.emod_lt_of_pos e hn
      rcases eq_or_lt_of_le h1 with hq | hq
      · have hs0 : e % n = e := by rw [hq] at hs; simpa using hs
        omega
      · have hprod : 0 ≤ (n - 1) * (-1 - e / n) :=
          mul_nonneg (by omega) (by omega)
        nlinarith [hs, hrn, hprod]
    omega

/-- When n divides the error exactly, the step scales it by (n-1)/n. -/
theorem errStep_dvd {e n : Int} (hn : n ≠ 0) (h : n ∣ e) :
    (e - e / n) * n = e * (n - 1) := by
  obtain ⟨c, rfl⟩ := h
  rw [Int.mul_ediv_cancel_left c hn]
  ring

/-- C6, amended: with VqdPIout held fixed, one call of FF_DataProcess maps
the per-component error e = Vpi - Vavg to e - floor(e/N) with N the
bandwidth: the error never changes sign and never grows, it decays by the
exact factor (N-1)/N when N divides it, and a call makes no progress at all
once 0 <= e < N, so Vavg converges to a residual within N-1 below Vpi
rather than to Vpi itself. -/
theorem ff_data_process_error_contraction (s : FF_Handle)
    (h1 : -32768 ≤ s.VqdAvPIout.qV_Component1) (h2 : s.VqdAvPIout.qV_Component1 ≤ 32767)
    (h3 : -32768 ≤ s.VqdPIout.qV_Component1) (h4 : s.VqdPIout.qV_Component1 ≤ 32767)
    (h5 : -32768 ≤ s.VqdAvPIout.qV_Component2) (h6 : s.VqdAvPIout.qV_Component2 ≤ 32767)
    (h7 : -32768 ≤ s.VqdPIout.qV_Component2) (h8 : s.VqdPIout.qV_Component2 ≤ 32767) :
    (ffErr1 (FF_DataProcess s) = ffErr1 s - ffErr1 s / ffBW s) ∧
    (ffErr2 (FF_DataProcess s) = ffErr2 s - ffErr2 s / ffBW s) ∧
    (0 ≤ ffErr1 s → 0 ≤ ffErr1 (FF_DataProcess s) ∧ ffErr1 (FF_DataProcess s) ≤ ffErr1 s) ∧
    (ffErr1 s ≤ 0 → ffErr1 s ≤ ffErr1 (FF_DataProcess s) ∧ ffErr1 (FF_DataProcess s) ≤ 0) ∧
    (ffBW s ∣ ffErr1 s →
      ffErr1 (FF_DataProcess s) * ffBW s = ffErr1 s * (ffBW s - 1)) ∧
    (0 ≤ ffErr1 s → ffErr1 s < ffBW s →
      (FF_DataProcess s).VqdAvPIout.qV_Component1 = s.VqdAvPIout.qV_Component1) ∧
    (0 ≤ ffErr2 s → 0 ≤ ffErr2 (FF_DataProcess s) ∧ ffErr2 (FF_DataProcess s) ≤ ffErr2 s) ∧
    (ffErr2 s ≤ 0 → ffErr2 s ≤ ffErr2 (FF_DataProcess s) ∧ ffErr2 (FF_DataProcess s) ≤ 0) ∧
    (ffBW s ∣ ffErr2 s →
      ffErr2 (FF_DataProcess s) * ffBW s = ffErr2 s * (ffBW s - 1)) ∧
    (0 ≤ ffErr2 s → ffErr2 s < ffBW s →
      (FF_DataProcess s).VqdAvPIout.qV_Component2 = s.VqdAvPIout.qV_Component2) := by
  have hb : (0:Int) < ffBW s := pow_pos (by norm_num) _
  have k1 : (FF_DataProcess s).VqdAvPIout.qV_Component1
      = s.VqdAvPIout.qV_Component1
        + (s.VqdPIout.qV_Component1 - s.VqdAvPIout.qV_Component1) / ffBW s := by
    have : (FF_DataProcess s).VqdAvPIout.qV_Component1
        = FF_lowPass_shift s.VqdAvPIout.qV_Component1 s.VqdPIout.qV_Component1
            s.hVqdLowPassFilterBWLOG := rfl
    rw [this, FF_lowPass_shift_eq _ _ _ h1 h2 h3 h4]; rfl
  have k2 : (FF_DataProcess s).VqdAvPIout.qV_Component2
      = s.VqdAvPIout.qV_Component2
        + (s.VqdPIout.qV_Component2 - s.VqdAvPIout.qV_Component2) / ffBW s := by
    have : (FF_DataProcess s).VqdAvPIout.qV_Component2
        = FF_lowPass_shift s.VqdAvPIout.qV_Component2 s.VqdPIout.qV_Component2
            s.hVqdLowPassFilterBWLOG := rfl
    rw [this, FF_lowPass_shift_eq _ _ _ h5 h6 h7 h8]; rfl
  have kp1 : (FF_DataProcess s).VqdPIout = s.VqdPIout := rfl
  have e1 : ffErr1 (FF_DataProcess s) = ffErr1 s - ffErr1 s / ffBW s := by
    unfold ffErr1
    rw [kp1, k1]
    generalize (s.VqdPIout.qV_Component1 - s.VqdAvPIout.qV_Component1) / ffBW s = q
    omega
  have e2 : ffErr2 (FF_DataProcess s) = ffErr2 s - ffErr2 s / ffBW s := by
    unfold ffErr2
    rw [kp1, k2]
    generalize (s.VqdPIout.qV_Component2 - s.VqdAvPIout.qV_Component2) / ffBW s = q
    omega
  refine ⟨e1, e2, ?_, ?_, ?_, ?_, ?_, ?_, ?_, ?_⟩
  · intro h; rw [e1]; exact (errStep_monotone hb).1 h
  · intro h; rw [e1]; exact (errStep_monotone hb).2 h
  · intro h; rw [e1]; exact errStep_dvd (by omega) h
  · intro h hlt
    have hz : ffErr1 s / ffBW s = 0 := Int.ediv_eq_zero_of_lt h hlt
    rw [k1, show (s.VqdPIout.qV_Component1 - s.VqdAvPIout.qV_Component1) / ffBW s
        = ffErr1 s / ffBW s from rfl, hz, add_zero]
  · intro h; rw [e2]; exact (errStep_monotone hb).1 h
  · intro h; rw [e2]; exact (errStep_monotone hb).2 h
  · intro h; rw [e2]; exact errStep_dvd (by omega) h
  · intro h hlt
    have hz : ffErr2 s / ffBW s = 0 := Int.ediv_eq_zero_of_lt h hlt
    rw [k2, show (s.VqdPIout.qV_Component2 - s.VqdAvPIout.qV_Component2) / ffBW s
        = ffErr2 s / ffBW s from rfl, hz, add_zero]

/-- FF state with bandwidth 4, a constant PI output of 3 on both axes and a
zero average: every call of FF_DataProcess leaves it unchanged. -/
def ffStallState : FF_Handle :=
  { pBus_Sensor := 0, pPID_d := 0, pPID_q := 0
    wConstant_1D := 0, wConstant_1Q := 0, wConstant_2 := 0
    wDefConstant_1D := 0, wDefConstant_1Q := 0, wDefConstant_2 := 0
    Vqdff := { qV_Component1 := 0, qV_Component2 := 0 }
    VqdPIout := { qV_Component1 := 3, qV_Component2 := 3 }
    VqdAvPIout := { qV_Component1 := 0, qV_Component2 := 0 }
    hVqdLowPassFilterBW := 4, hVqdLowPassFilterBWLOG := 2 }

/-- C6, counterexample: with bandwidth N = 4 and constant PI output 3, a
state with zero average is a fixed point of FF_DataProcess although its
error is 3, so repeated calls leave VqdAvPIout at 0 forever: the error does
not decay by the factor (N-1)/N on this call and VqdAvPIout does not
converge to the constant PI output.  The FULL_MISRA_C_COMPLIANCY division
form of the low-pass stalls at the same point, so the failure is not an
artifact of the shift path. -/
theorem ff_data_process_stall_counterexample :
    FF_DataProcess ffStallState = ffStallState ∧
      FF_DataProcess (FF_DataProcess ffStallState) = ffStallState ∧
      ffStallState.VqdAvPIout.qV_Component1 ≠ ffStallState.VqdPIout.qV_Component1 ∧
      FF_lowPass_misra ffStallState.VqdAvPIout.qV_Component1
          ffStallState.VqdPIout.qV_Component1 4
        = ffStallState.VqdAvPIout.qV_Component1 := by
  decide

/-- Witness: the amended error-contraction theorem evaluated on a concrete
state with bandwidth 4 and errors 8 and -8. -/
theorem ff_data_process_error_contraction_witness :
    ffErr1 (FF_DataProcess
        { ffStallState with
            VqdPIout := { qV_Component1 := 8, qV_Component2 := -8 } })
      = 8 - Int.ediv 8 4 := by
  have h := ff_data_process_error_contraction
    { ffStallState with VqdPIout := { qV_Component1 := 8, qV_Component2 := -8 } }
    (by decide) (by decide) (by decide) (by decide)
    (by decide) (by decide) (by decide) (by decide)
  have h1 := h.1
  rw [h1]
  decide

/-- Symmetric clamp used at the top of STO_CalcElAngle: values above m are
pulled down to m, values at or below -m are pulled up to -m. -/
def clampSym (x m : Int) : Int := if x > m then m else if x ≤ -m then -m else x

/-- Clamping phase at the top of STO_CalcElAngle (lines 160 to 216): each
scaled estimate is clamped to plus-minus INT16_MAX times its scale factor
and stored back into the handle before being consumed.  The four clamps are
independent, so they are gathered into one state update. -/
def STO_clampPhase (s : STO_Handle) : STO_Handle :=
  { s with wBemf_alfa_est := clampSym s.wBemf_alfa_est (32767 * s.hF2)
           wBemf_beta_est := clampSym s.wBemf_beta_est (32767 * s.hF2)
           Ialfa_est := clampSym s.Ialfa_est (32767 * s.hF1)
           Ibeta_est := clampSym s.Ibeta_est (32767 * s.hF1) }

/-- S16 alpha back-EMF estimate as decimated inside the step: the clamped
scaled estimate shifted right by F2LOG and cast to int16. -/
def STO_bemfAlfaS16 (s : STO_Handle) : Int :=
  wrap16 (sar (STO_clampPhase s).wBemf_alfa_est s.F2LOG)

/-- S16 beta back-EMF estimate as decimated inside the step. -/
def STO_bemfBetaS16 (s : STO_Handle) : Int :=
  wrap16 (sar (STO_clampPhase s).wBemf_beta_est s.F2LOG)

/-- Rotation direction used by the step: plus one when the stored electrical
speed in dpp is nonnegative, minus one otherwise. -/
def STO_direction (s : STO_Handle) : Int :=
  if 0 ≤ s.sSuper.hElSpeedDpp then 1 else -1

/-- Error computed inside STO_ExecutePLL and fed to the PI regulator: the
two BEMF arguments are multiplied by the cosine and sine of the current
electrical angle, each product is separately shifted right by 15 and cast
to int16, and the difference of the two casts is the error. -/
def executePLLError (trig : Int → Trig_Components) (angle bemfAlfa bemfBeta : Int) : Int :=
  let lc := trig angle
  let hAux1 := wrap16 (sar (bemfBeta * lc.hCos) 15)
  let hAux2 := wrap16 (sar (bemfAlfa * lc.hSin) 15)
  hAux1 - hAux2

/-- STO_ExecutePLL of sto_speed_pos_fdbk.c, parameterized by the trig table
and the PI-controller step (both live outside the embedded sources): runs
the PI regulator on the quadrature error and returns its output together
with the updated regulator state. -/
def STO_ExecutePLL (trig : Int → Trig_Components) (piCtl : Int → Int → Int × Int)
    (reg angle bemfAlfa bemfBeta : Int) : Int × Int :=
  piCtl reg (executePLLError trig angle bemfAlfa bemfBeta)

/-- STO_Store_Rotor_Speed of sto_speed_pos_fdbk.c: advances the FIFO index
with wrap at SpeedBufferSize01Hz, snapshots the element about to be
overwritten into SpeedBufferOldestEl and stores the new speed there. -/
def STO_Store_Rotor_Speed (s : STO_Handle) (hRotor_Speed : Int) : STO_Handle :=
  let i0 := s.Speed_Buffer_Index + 1
  let bBuffer_index := if i0 = s.SpeedBufferSize01Hz then 0 else i0
  { s with SpeedBufferOldestEl := s.Speed_Buffer.getD bBuffer_index 0
           Speed_Buffer := s.Speed_Buffer.set bBuffer_index hRotor_Speed
           Speed_Buffer_Index := bBuffer_index }

/-- STO_CalcElAngle of sto_speed_pos_fdbk.c (bit-shift paths), with the
error handed to the PI regulator of the PLL returned as a ghost second
component.  trig models MCM_Trig_Functions and piCtl models PI_Controller
over the opaque regulator state; both are outside the embedded sources. -/
def STO_CalcElAngleAux (trig : Int → Trig_Components) (piCtl : Int → Int → Int × Int)
    (s0 : STO_Handle) (inp : Observer_Inputs) : STO_Handle × Int :=
  let s := STO_clampPhase s0
  let hAux_Alfa := wrap16 (sar s.wBemf_alfa_est s.F2LOG)
  let hAux_Beta := wrap16 (sar s.wBemf_beta_est s.F2LOG)
  let hIalfa_dec := wrap16 (sar s.Ialfa_est s.F1LOG)
  let hIbeta_dec := wrap16 (sar s.Ibeta_est s.F1LOG)
  let hIalfa_err := wrap16 (hIalfa_dec - inp.Ialfa_beta.qI_Component1)
  let hIbeta_err := wrap16 (hIbeta_dec - inp.Ialfa_beta.qI_Component2)
  let hValfa := STO_voltRecon_shift inp.Vbus inp.Valfa_beta.qV_Component1
  let hVbeta := STO_voltRecon_shift inp.Vbus inp.Valfa_beta.qV_Component2
  let wIalfa_est_Next := s.Ialfa_est - s.hC1 * hIalfa_dec + s.hC2 * hIalfa_err
      + s.hC5 * hValfa - s.hC3 * hAux_Alfa
  let wBemf_alfa_est_Next := s.wBemf_alfa_est + s.hC4 * hIalfa_err
      + s.sSuper.hElSpeedDpp * (sar hAux_Beta s.F3POW2 * s.hC6)
  let wIbeta_est_Next := s.Ibeta_est - s.hC1 * hIbeta_dec + s.hC2 * hIbeta_err
      + s.hC5 * hVbeta - s.hC3 * hAux_Beta
  let wBemf_beta_est_Next := s.wBemf_beta_est + s.hC4 * hIbeta_err
      - s.sSuper.hElSpeedDpp * (sar hAux_Alfa s.F3POW2 * s.hC6)
  let wDirection : Int := if 0 ≤ s.sSuper.hElSpeedDpp then 1 else -1
  let s1 := { s with hBemf_alfa_est := hAux_Alfa, hBemf_beta_est := hAux_Beta }
  let bAlfa := wrap16 (hAux_Alfa * wDirection)
  let bBeta := wrap16 (hAux_Beta * wDirection)
  let pllError := executePLLError trig s1.sSuper.hElAngle bAlfa (wrap16 (-bBeta))
  let pll := STO_ExecutePLL trig piCtl s1.PIRegulator s1.sSuper.hElAngle bAlfa (wrap16 (-bBeta))
  let s2 := { s1 with PIRegulator := pll.2 }
  let s3 := STO_Store_Rotor_Speed s2 pll.1
  let s4 := { s3 with sSuper := { s3.sSuper with
      hElAngle := wrap16 (s3.sSuper.hElAngle + pll.1) } }
  ({ s4 with Ialfa_est := wIalfa_est_Next
             wBemf_alfa_est := wBemf_alfa_est_Next
             Ibeta_est := wIbeta_est_Next
             wBemf_beta_est := wBemf_beta_est_Next }, pllError)

/-- STO_CalcElAngle as the state transformer alone. -/
def STO_CalcElAngle (trig : Int → Trig_Components) (piCtl : Int → Int → Int × Int)
    (s0 : STO_Handle) (inp : Observer_Inputs) : STO_Handle :=
  (STO_CalcElAngleAux trig piCtl s0 inp).1

/-- Values of clampSym always lie inside the symmetric range when the bound
is nonnegative. -/
theorem clampSym_bounds {x m : Int} (hm : 0 ≤ m) :
    -m ≤ clampSym x m ∧ clampSym x m ≤ m := by
  unfold clampSym
  split_ifs <;> omega

/-- C1, amended: the estimates consumed by the observer step are in range:
after the clamping phase at the top of STO_CalcElAngle, and before any
estimate is decimated or used, both current estimates lie within plus-minus
INT16_MAX times F1 and both scaled back-EMF estimates within plus-minus
INT16_MAX times F2.  The values stored when the step returns are the fresh
unclamped accumulator values and may lie outside those ranges (they are
re-clamped at the start of the next call). -/
theorem sto_estimates_clamped_before_use (s : STO_Handle)
    (hf1 : 0 ≤ s.hF1) (hf2 : 0 ≤ s.hF2) :
    -(32767 * s.hF1) ≤ (STO_clampPhase s).Ialfa_est ∧
    (STO_clampPhase s).Ialfa_est ≤ 32767 * s.hF1 ∧
    -(32767 * s.hF1) ≤ (STO_clampPhase s).Ibeta_est ∧
    (STO_clampPhase s).Ibeta_est ≤ 32767 * s.hF1 ∧
    -(32767 * s.hF2) ≤ (STO_clampPhase s).wBemf_alfa_est ∧
    (STO_clampPhase s).wBemf_alfa_est ≤ 32767 * s.hF2 ∧
    -(32767 * s.hF2) ≤ (STO_clampPhase s).wBemf_beta_est ∧
    (STO_clampPhase s).wBemf_beta_est ≤ 32767 * s.hF2 := by
  have hm1 : (0:Int) ≤ 32767 * s.hF1 := by positivity
  have hm2 : (0:Int) ≤ 32767 * s.hF2 := by positivity
  have ha := clampSym_bounds (x := s.Ialfa_est) hm1
  have hb := clampSym_bounds (x := s.Ibeta_est) hm1
  have hc := clampSym_bounds (x := s.wBemf_alfa_est) hm2
  have hd := clampSym_bounds (x := s.wBemf_beta_est) hm2
  exact ⟨ha.1, ha.2, hb.1, hb.2, hc.1, hc.2, hd.1, hd.2⟩

/-- Base concrete observer state used by the examples: unit scale factors,
zero gains and estimates, a two-entry speed FIFO. -/
def stoZeroState : STO_Handle :=
  { sSuper :=
      { hElAngle := 0, hElSpeedDpp := 0, hAvrMecSpeed01Hz := 0
        hMecAccel01HzP := 0, hMeasurementFrequency := 0, bElToMecRatio := 1
        hMaxReliableMecSpeed01Hz := 1, bSpeedErrorNumber := 0
        bMaximumSpeedErrorsNumber := 0 }
    hC1 := 0, hC2 := 0, hC3 := 0, hC4 := 0, hC5 := 0, hC6 := 0
    hF1 := 1, hF2 := 1, hF3 := 1
    F1LOG := 0, F2LOG := 0, F3POW2 := 0
    Ialfa_est := 0, Ibeta_est := 0
    wBemf_alfa_est := 0, wBemf_beta_est := 0
    hBemf_alfa_est := 0, hBemf_beta_est := 0
    Speed_Buffer := [0, 0], Speed_Buffer_Index := 0
    SpeedBufferOldestEl := 0, DppBufferSum := 0
    SpeedBufferSize01Hz := 2, SpeedBufferSizedpp := 2, SpeedBufferSizedppLOG := 1
    VariancePercentage := 0
    IsSpeedReliable := false, IsBemfConsistent := false
    IsAlgorithmConverged := false, EnableDualCheck := false
    ForceConvergency := false, ForceConvergency2 := false
    Obs_Bemf_Level := 0, Est_Bemf_Level := 0
    MaxAppPositiveMecSpeed01Hz := 0
    BemfConsistencyGain := 0, BemfConsistencyCheck := 0
    ReliabilityCounter := 0, Reliability_hysteresys := 0
    ConsistencyCounter := 0, StartUpConsistThreshold := 0
    MinStartUpValidSpeed := 0
    SpeedValidationBand_H := 0, SpeedValidationBand_L := 0
    PIRegulator := 0 }

/-- Observer inputs that are all zero. -/
def obsZeroInputs : Observer_Inputs :=
  { Ialfa_beta := { qI_Component1 := 0, qI_Component2 := 0 }
    Valfa_beta := { qV_Component1 := 0, qV_Component2 := 0 }
    Vbus := 0 }

/-- Modelled from the spec: MCM_Trig_Functions of mc_math.c is not among
the embedded sources; the spec fixes its contract as sine and cosine of an
s16 angle scaled to plus-minus 32767, so at electrical angle zero it
returns sine 0 and cosine 32767.  This constant model agrees with that
contract at the only angle the examples evaluate, namely zero. -/
def trigAtZero : Int → Trig_Components := fun _ => { hSin := 0, hCos := 32767 }

/-- PI-controller model that outputs zero and keeps its state: enough for
examples whose conclusion does not depend on the PI output. -/
def piZero : Int → Int → Int × Int := fun reg _ => (0, reg)

/-- Observer state that drives the alpha back-EMF accumulator far above its
clamp bound within one step: C4 gain 32767 and a large current error. -/
def stoClampCexState : STO_Handle :=
  { stoZeroState with hC4 := 32767, wBemf_alfa_est := 32767 }

/-- Inputs for the clamp counterexample: a large negative measured alpha
current makes the current error 32767. -/
def stoClampCexInputs : Observer_Inputs :=
  { obsZeroInputs with Ialfa_beta := { qI_Component1 := -32767, qI_Component2 := 0 } }

/-- C1, counterexample: after STO_CalcElAngle returns on this state, the
stored scaled alpha back-EMF estimate exceeds INT16_MAX times F2, so the
stored estimates are not all within their declared clamp ranges after the
step. -/
theorem sto_step_estimate_exceeds_clamp_after_return :
    32767 * (STO_CalcElAngle trigAtZero piZero stoClampCexState stoClampCexInputs).hF2
      < (STO_CalcElAngle trigAtZero piZero stoClampCexState stoClampCexInputs).wBemf_alfa_est := by
  decide

/-- Witness: the amended clamp theorem evaluated on the counterexample
state, whose consumed estimates are indeed in range. -/
theorem sto_estimates_clamped_before_use_witness :
    -(32767 * stoClampCexState.hF1) ≤ (STO_clampPhase stoClampCexState).Ialfa_est ∧
    (STO_clampPhase stoClampCexState).wBemf_alfa_est ≤ 32767 * stoClampCexState.hF2 := by
  have h := sto_estimates_clamped_before_use stoClampCexState (by decide) (by decide)
  exact ⟨h.1, h.2.2.2.2.2.1⟩

/-- PLL error exactly as the specification words it: the difference between
the beta BEMF times cosine and the alpha BEMF times sine, divided once by
32768, with the BEMF arguments already sign-corrected by the direction. -/
def spec_pll_error (trig : Int → Trig_Components) (angle eAlfaDir eBetaDir : Int) : Int :=
  cdiv (eBetaDir * (trig angle).hCos - eAlfaDir * (trig angle).hSin) 32768

/-- C2, amended: in every call of the observer step the error fed to the
PI regulator of the PLL equals the int16 cast of the product of the
negated sign-corrected beta BEMF with cos of the pre-update angle shifted
right by 15, minus the int16 cast of the product of the sign-corrected
alpha BEMF with sin of that angle shifted right by 15: the beta BEMF enters
negated, and the two products are floored separately instead of a single
truncating division of their difference. -/
theorem sto_pll_error_formula (trig : Int → Trig_Components)
    (piCtl : Int → Int → Int × Int) (s : STO_Handle) (inp : Observer_Inputs) :
    (STO_CalcElAngleAux trig piCtl s inp).2 =
      wrap16 (sar (wrap16 (-(wrap16 (STO_bemfBetaS16 s * STO_direction s)))
          * (trig s.sSuper.hElAngle).hCos) 15)
      - wrap16 (sar (wrap16 (STO_bemfAlfaS16 s * STO_direction s)
          * (trig s.sSuper.hElAngle).hSin) 15) := rfl

/-- Observer state for the PLL-error counterexample: unit scaling, beta
back-EMF estimate 1, zero speed (direction plus one), angle zero. -/
def stoPllCexState : STO_Handle :=
  { stoZeroState with wBemf_beta_est := 1 }

/-- C2, counterexample: on this state the error the step feeds to the PI
regulator is -1, while the formula of the claim evaluates to 0, because
the code negates the beta BEMF before the projection and floors each
product separately. -/
theorem sto_pll_error_counterexample :
    (STO_CalcElAngleAux trigAtZero piZero stoPllCexState obsZeroInputs).2
      ≠ spec_pll_error trigAtZero stoPllCexState.sSuper.hElAngle
          (STO_bemfAlfaS16 stoPllCexState * STO_direction stoPllCexState)
          (STO_bemfBetaS16 stoPllCexState * STO_direction stoPllCexState) := by
  decide

/-- Absolute value of the estimated mechanical speed as the convergence
detector computes it: int16 negation of the stored average when it is
negative. -/
def stoConvEstAbs (s : STO_Handle) : Int :=
  if s.sSuper.hAvrMecSpeed01Hz < 0 then wrap16 (-s.sSuper.hAvrMecSpeed01Hz)
  else s.sSuper.hAvrMecSpeed01Hz

/-- Absolute value of the forced mechanical speed as the detector computes
it. -/
def stoConvForcedAbs (forced : Int) : Int :=
  if forced < 0 then wrap16 (-forced) else forced

/-- Upper speed-validation threshold: the forced speed magnitude times
BandH, divided by 16 and cast to int16. -/
def stoConvUpper (s : STO_Handle) (forced : Int) : Int :=
  wrap16 (cdiv (stoConvForcedAbs forced * s.SpeedValidationBand_H) 16)

/-- Lower speed-validation threshold. -/
def stoConvLower (s : STO_Handle) (forced : Int) : Int :=
  wrap16 (cdiv (stoConvForcedAbs forced * s.SpeedValidationBand_L) 16)

/-- Conjunction of the four conditions the convergence detector tests on a
tick (with both force flags false): positive product of estimated and
forced speed, reliable speed, magnitude above the minimum startup speed
(compared through the uint16 cast, as in the source) and magnitude inside
the validation band. -/
def stoConvCond (s : STO_Handle) (forced : Int) : Prop :=
  0 < s.sSuper.hAvrMecSpeed01Hz * forced ∧
  s.IsSpeedReliable = true ∧
  s.MinStartUpValidSpeed < toUint16 (stoConvEstAbs s) ∧
  stoConvLower s forced ≤ stoConvEstAbs s ∧
  stoConvEstAbs s ≤ stoConvUpper s forced

/-- STO_IsObserverConverged of sto_speed_pos_fdbk.c: returns the verdict
together with the updated state. -/
def STO_IsObserverConverged (s : STO_Handle) (hForcedMecSpeed01Hz : Int) :
    Bool × STO_Handle :=
  let forced := if s.ForceConvergency2 then s.sSuper.hAvrMecSpeed01Hz
                else hForcedMecSpeed01Hz
  if s.ForceConvergency then
    (true, { s with IsAlgorithmConverged := true
                    sSuper := { s.sSuper with bSpeedErrorNumber := 0 } })
  else
    let wtemp := s.sSuper.hAvrMecSpeed01Hz * forced
    if 0 < wtemp then
      let estA := stoConvEstAbs s
      let hUpperThreshold := stoConvUpper s forced
      let hLowerThreshold := stoConvLower s forced
      if s.IsSpeedReliable then
        if s.MinStartUpValidSpeed < toUint16 estA then
          if hLowerThreshold ≤ estA then
            if estA ≤ hUpperThreshold then
              let c := s.ConsistencyCounter + 1
              if s.StartUpConsistThreshold ≤ c then
                (true, { s with ConsistencyCounter := c
                                IsAlgorithmConverged := true
                                sSuper := { s.sSuper with bSpeedErrorNumber := 0 } })
              else (false, { s with ConsistencyCounter := c })
            else (false, { s with ConsistencyCounter := 0 })
          else (false, { s with ConsistencyCounter := 0 })
        else (false, { s with ConsistencyCounter := 0 })
      else (false, { s with ConsistencyCounter := 0 })
    else (false, s)

/-- C3, amended: with both force flags false, a call in which all four
conditions hold increments ConsistencyCounter; a call in which the speed
product is positive but one of the remaining three conditions fails resets
the counter to 0; a call in which the speed product is not positive leaves
the counter unchanged (it is not reset); and the call returns true exactly
when all four conditions hold and the incremented counter reaches
StartUpConsistThreshold. -/
theorem sto_observer_converged_counter_behavior (s : STO_Handle) (forced : Int)
    (hfc : s.ForceConvergency = false) (hfc2 : s.ForceConvergency2 = false) :
    (stoConvCond s forced →
      (STO_IsObserverConverged s forced).2.ConsistencyCounter
        = s.ConsistencyCounter + 1) ∧
    (0 < s.sSuper.hAvrMecSpeed01Hz * forced → ¬ stoConvCond s forced →
      (STO_IsObserverConverged s forced).2.ConsistencyCounter = 0) ∧
    (s.sSuper.hAvrMecSpeed01Hz * forced ≤ 0 →
      (STO_IsObserverConverged s forced).2.ConsistencyCounter
        = s.ConsistencyCounter) ∧
    ((STO_IsObserverConverged s forced).1 = true ↔
      stoConvCond s forced ∧
        s.StartUpConsistThreshold ≤ s.ConsistencyCounter + 1) := by
  unfold STO_IsObserverConverged stoConvCond
  rw [hfc, hfc2]
  simp only [Bool.false_eq_true, if_false]
  split_ifs with h1 h2 h3 h4 h5 h6 <;> simp_all

/-- Convergence-detector state with a nonzero consistency counter, used to
show the counter survives a failing tick. -/
def stoConvCexState : STO_Handle :=
  { stoZeroState with ConsistencyCounter := 5 }

/-- C3, counterexample: with forced speed 0 the first condition (positive
speed product) fails, yet the call leaves ConsistencyCounter at 5 instead
of resetting it to 0. -/
theorem sto_observer_converged_no_reset_counterexample :
    stoConvCexState.sSuper.hAvrMecSpeed01Hz * 0 ≤ 0 ∧
    (STO_IsObserverConverged stoConvCexState 0).2.ConsistencyCounter ≠ 0 ∧
    (STO_IsObserverConverged stoConvCexState 0).2.ConsistencyCounter
      = stoConvCexState.ConsistencyCounter := by
  decide

/-- Convergence-detector state satisfying all four conditions at forced
speed 100, with the startup threshold still far away. -/
def stoConvWitState : STO_Handle :=
  { stoZeroState with
      sSuper := { stoZeroState.sSuper with hAvrMecSpeed01Hz := 100 }
      IsSpeedReliable := true
      MinStartUpValidSpeed := 50
      SpeedValidationBand_L := 14
      SpeedValidationBand_H := 18
      StartUpConsistThreshold := 64
      ConsistencyCounter := 10 }

/-- Witness: the amended counter-behavior theorem evaluated on a satisfying
tick, which increments the counter from 10 to 11. -/
theorem sto_observer_converged_counter_behavior_witness :
    (STO_IsObserverConverged stoConvWitState 100).2.ConsistencyCounter
      = stoConvWitState.ConsistencyCounter + 1 := by
  have h := sto_observer_converged_counter_behavior stoConvWitState 100 rfl rfl
  exact h.1 (by unfold stoConvCond; decide)

/-- Sum of the first n FIFO entries, as the for loops of
STO_CalcAvrgMecSpeed01Hz read them. -/
def sumIdx (l : List Int) (n : Nat) : Int :=
  (List.range n).foldl (fun a i => a + l.getD i 0) 0

/-- Sum of squared deviations of the first n FIFO entries from avg. -/
def sqDevSum (l : List Int) (n : Nat) (avg : Int) : Int :=
  (List.range n).foldl (fun a i => a + (l.getD i 0 - avg) * (l.getD i 0 - avg)) 0

/-- Buffer average in dpp computed by STO_CalcAvrgMecSpeed01Hz. -/
def STO_avrSpeedDpp (s : STO_Handle) : Int :=
  cdiv (sumIdx s.Speed_Buffer s.SpeedBufferSize01Hz) (s.SpeedBufferSize01Hz : Int)

/-- The int32 mechanical speed in 01Hz units before the int16 cast, as
STO_CalcAvrgMecSpeed01Hz computes it: average dpp speed times measurement
frequency times 10, divided by 65536 and by the electrical-to-mechanical
ratio. -/
def STO_mecSpeedAux (s : STO_Handle) : Int :=
  cdiv (cdiv (STO_avrSpeedDpp s * s.sSuper.hMeasurementFrequency * 10) 65536)
    s.sSuper.bElToMecRatio

/-- C-style absolute value, as taken of wAux in the dual check. -/
def stoAbs (x : Int) : Int := if x < 0 then -x else x

/-- Observed squared BEMF of the dual check: sum of the squares of the two
stored s16 BEMF estimates. -/
def stoObsBemfSq (s1 : STO_Handle) : Int :=
  s1.hBemf_alfa_est * s1.hBemf_alfa_est + s1.hBemf_beta_est * s1.hBemf_beta_est

/-- Estimated BEMF of the dual check: speed magnitude scaled to 32767 at
the maximum reliable mechanical speed. -/
def stoEstBemf (s1 : STO_Handle) (wAux : Int) : Int :=
  cdiv (stoAbs wAux * 32767) s1.sSuper.hMaxReliableMecSpeed01Hz

/-- Estimated squared BEMF level with the consistency gain applied. -/
def stoEstBemfSq (s1 : STO_Handle) (wAux : Int) : Int :=
  cdiv (stoEstBemf s1 wAux * s1.BemfConsistencyGain) 64 * stoEstBemf s1 wAux

/-- Threshold of the dual check: the estimated squared level reduced by
check 64ths of itself. -/
def stoEstBemfSqLo (s1 : STO_Handle) (wAux : Int) : Int :=
  stoEstBemfSq s1 wAux - cdiv (stoEstBemfSq s1 wAux) 64 * s1.BemfConsistencyCheck

/-- Verdict of the dual check: observed squared BEMF strictly above the
threshold. -/
def stoDualFlag (s1 : STO_Handle) (wAux : Int) : Bool :=
  if stoEstBemfSqLo s1 wAux < stoObsBemfSq s1 then true else false

/-- BEMF dual-consistency block of STO_CalcAvrgMecSpeed01Hz (lines 411 to
446): when enabled and the speed magnitude is below the application
maximum, compares the observed squared BEMF against the scaled threshold
derived from the estimated BEMF; returns the updated state and the local
consistency flag used by the decision logic (true when the check is
disabled, in which case the stored flag is not written). -/
def STO_dualCheck (s1 : STO_Handle) (wAux : Int) : STO_Handle × Bool :=
  if s1.EnableDualCheck then
    if stoAbs wAux < s1.MaxAppPositiveMecSpeed01Hz then
      ({ s1 with IsBemfConsistent := stoDualFlag s1 wAux
                 Obs_Bemf_Level := stoObsBemfSq s1
                 Est_Bemf_Level := stoEstBemfSq s1 wAux }, stoDualFlag s1 wAux)
    else
      ({ s1 with IsBemfConsistent := false, Obs_Bemf_Level := 0
                 Est_Bemf_Level := 0 }, false)
  else (s1, true)

/-- Variance verdict of STO_CalcAvrgMecSpeed01Hz: the measured variance of
the FIFO strictly below the allowed fraction of the squared average. -/
def stoSpeedReliableFlag (s : STO_Handle) : Bool :=
  if cdiv (sqDevSum s.Speed_Buffer s.SpeedBufferSize01Hz (STO_avrSpeedDpp s))
      (s.SpeedBufferSize01Hz : Int)
    < cdiv (STO_avrSpeedDpp s * STO_avrSpeedDpp s) 128 * s.VariancePercentage
  then true else false

/-- First phase of STO_CalcAvrgMecSpeed01Hz: stores the int16 mechanical
speed and the variance verdict into the handle. -/
def STO_mecPhase1 (s : STO_Handle) : STO_Handle :=
  { s with sSuper := { s.sSuper with hAvrMecSpeed01Hz := wrap16 (STO_mecSpeedAux s) }
           IsSpeedReliable := stoSpeedReliableFlag s }

/-- Decision logic at the end of STO_CalcAvrgMecSpeed01Hz, over the state
produced by the dual check and the local consistency flag. -/
def STO_speedDecision
    (spdRel : SpeednPosFdbk_Handle → Int → Bool × SpeednPosFdbk_Handle)
    (s2 : STO_Handle) (bemfConsLocal : Bool) (mec : Int) :
    Bool × Int × STO_Handle :=
  if s2.IsAlgorithmConverged = false then
    let r := spdRel s2.sSuper mec
    (r.1, mec, { s2 with sSuper := r.2 })
  else
    if s2.IsSpeedReliable = false ∨ bemfConsLocal = false then
      if s2.Reliability_hysteresys ≤ s2.ReliabilityCounter + 1 then
        (false, mec,
          { s2 with ReliabilityCounter := 0
                    sSuper := { s2.sSuper with
                      bSpeedErrorNumber := s2.sSuper.bMaximumSpeedErrorsNumber } })
      else
        let r := spdRel s2.sSuper mec
        (r.1, mec, { s2 with ReliabilityCounter := s2.ReliabilityCounter + 1
                             sSuper := r.2 })
    else
      let r := spdRel s2.sSuper mec
      (r.1, mec, { s2 with ReliabilityCounter := 0, sSuper := r.2 })

/-- STO_CalcAvrgMecSpeed01Hz of sto_speed_pos_fdbk.c, parameterized by
SPD_IsMecSpeedReliable of the base component (outside the embedded
sources), which may update the base handle.  Returns the reliability
verdict, the reported mechanical speed in 01Hz and the updated state. -/
def STO_CalcAvrgMecSpeed01Hz
    (spdRel : SpeednPosFdbk_Handle → Int → Bool × SpeednPosFdbk_Handle)
    (s : STO_Handle) : Bool × Int × STO_Handle :=
  let dual := STO_dualCheck (STO_mecPhase1 s) (STO_mecSpeedAux s)
  STO_speedDecision spdRel dual.1 dual.2 (wrap16 (STO_mecSpeedAux s))

/-- The decision logic never writes IsBemfConsistent: the stored flag after
it runs is the one the dual-check block computed. -/
theorem sto_speedDecision_preserves_bemf_flag
    (spdRel : SpeednPosFdbk_Handle → Int → Bool × SpeednPosFdbk_Handle)
    (s2 : STO_Handle) (b : Bool) (mec : Int) :
    (STO_speedDecision spdRel s2 b mec).2.2.IsBemfConsistent
      = s2.IsBemfConsistent := by
  unfold STO_speedDecision
  split_ifs <;> rfl

/-- The dual-check threshold is nonnegative whenever the maximum reliable
speed is positive, the gain is nonnegative and the check fraction is at
most 64 64ths. -/
theorem stoEstBemfSqLo_nonneg (s1 : STO_Handle) (wAux : Int)
    (hmr : 0 < s1.sSuper.hMaxReliableMecSpeed01Hz)
    (hg : 0 ≤ s1.BemfConsistencyGain)
    (hc0 : 0 ≤ s1.BemfConsistencyCheck) (hc64 : s1.BemfConsistencyCheck ≤ 64) :
    0 ≤ stoEstBemfSqLo s1 wAux := by
  have ha : 0 ≤ stoAbs wAux := by unfold stoAbs; split_ifs <;> omega
  have he : 0 ≤ stoEstBemf s1 wAux := by
    unfold stoEstBemf
    exact Int.tdiv_nonneg (mul_nonneg ha (by norm_num)) hmr.le
  have hq : 0 ≤ cdiv (stoEstBemf s1 wAux * s1.BemfConsistencyGain) 64 :=
    Int.tdiv_nonneg (mul_nonneg he hg) (by norm_num)
  have hsq : 0 ≤ stoEstBemfSq s1 wAux := by
    unfold stoEstBemfSq
    exact mul_nonneg hq he
  unfold stoEstBemfSqLo
  set u := stoEstBemfSq s1 wAux with hu
  set t := cdiv u 64 with htd
  have ht0 : 0 ≤ t := Int.tdiv_nonneg hsq (by norm_num)
  have hteq : t = u / 64 := Int.tdiv_eq_ediv hsq (by norm_num)
  have ht64 : t * 64 ≤ u := by
    have hs := Int.ediv_add_emod u 64
    have hr0 : 0 ≤ u % 64 := Int.emod_nonneg u (by norm_num)
    omega
  have h1 : t * s1.BemfConsistencyCheck ≤ t * 64 :=
    mul_le_mul_of_nonneg_left hc64 ht0
  omega

theorem sto_dualCheck_zero_bemf_inconsistent (s1 : STO_Handle) (wAux : Int)
    (hdc : s1.EnableDualCheck = true)
    (hba : s1.hBemf_alfa_est = 0) (hbb : s1.hBemf_beta_est = 0)
    (habs : stoAbs wAux < s1.MaxAppPositiveMecSpeed01Hz)
    (hmr : 0 < s1.sSuper.hMaxReliableMecSpeed01Hz)
    (hg : 0 ≤ s1.BemfConsistencyGain)
    (hc0 : 0 ≤ s1.BemfConsistencyCheck) (hc64 : s1.BemfConsistencyCheck ≤ 64) :
    (STO_dualCheck s1 wAux).1.IsBemfConsistent = false := by
  have hobs : stoObsBemfSq s1 = 0 := by
    unfold stoObsBemfSq
    rw [hba, hbb]
    ring
  have hlo : 0 ≤ stoEstBemfSqLo s1 wAux :=
    stoEstBemfSqLo_nonneg s1 wAux hmr hg hc0 hc64
  have hflag : stoDualFlag s1 wAux = false := by
    unfold stoDualFlag
    rw [hobs, if_neg]
    omega
  unfold STO_dualCheck
  split_ifs
  show stoDualFlag s1 wAux = false
  exact hflag

/-- C7: whenever the dual check is enabled, both stored s16 back-EMF
estimates are zero, and the computed mechanical speed has nonzero magnitude
below MaxAppPositiveMecSpeed01Hz (with a positive maximum reliable speed
and the consistency gain and check in their configured ranges, the check at
most 64), STO_CalcAvrgMecSpeed01Hz stores IsBemfConsistent = false: the
observed squared BEMF 0 is not greater than the nonnegative threshold. -/
theorem sto_calc_avrg_mec_bemf_inconsistent
    (spdRel : SpeednPosFdbk_Handle → Int → Bool × SpeednPosFdbk_Handle)
    (s : STO_Handle)
    (hdc : s.EnableDualCheck = true)
    (hba : s.hBemf_alfa_est = 0) (hbb : s.hBemf_beta_est = 0)
    (hnz : STO_mecSpeedAux s ≠ 0)
    (habs : stoAbs (STO_mecSpeedAux s) < s.MaxAppPositiveMecSpeed01Hz)
    (hmr : 0 < s.sSuper.hMaxReliableMecSpeed01Hz)
    (hg : 0 ≤ s.BemfConsistencyGain)
    (hc0 : 0 ≤ s.BemfConsistencyCheck) (hc64 : s.BemfConsistencyCheck ≤ 64) :
    (STO_CalcAvrgMecSpeed01Hz spdRel s).2.2.IsBemfConsistent = false := by
  have hpres := sto_speedDecision_preserves_bemf_flag spdRel
    (STO_dualCheck (STO_mecPhase1 s) (STO_mecSpeedAux s)).1
    (STO_dualCheck (STO_mecPhase1 s) (STO_mecSpeedAux s)).2
    (wrap16 (STO_mecSpeedAux s))
  exact hpres.trans
    (sto_dualCheck_zero_bemf_inconsistent (STO_mecPhase1 s) (STO_mecSpeedAux s)
      hdc hba hbb habs hmr hg hc0 hc64)

/-- Observer state realizing S4 of the spec: one-entry FIFO holding 3277
dpp, measurement frequency 1000 and unit ratio give a mechanical speed of
500 in 01Hz units; maximum reliable speed 1000, gain 64, check 32, dual
check enabled, both BEMF estimates zero. -/
def stoBemfCexState : STO_Handle :=
  { stoZeroState with
      sSuper := { stoZeroState.sSuper with
        hMeasurementFrequency := 1000
        bElToMecRatio := 1
        hMaxReliableMecSpeed01Hz := 1000 }
      Speed_Buffer := [3277]
      SpeedBufferSize01Hz := 1
      VariancePercentage := 1
      EnableDualCheck := true
      MaxAppPositiveMecSpeed01Hz := 1000
      BemfConsistencyGain := 64
      BemfConsistencyCheck := 32 }

/-- Base-component reliability model that always accepts, used only to
instantiate the parameterized call in the witness. -/
def spdRelAccept : SpeednPosFdbk_Handle → Int → Bool × SpeednPosFdbk_Handle :=
  fun sup _ => (true, sup)

/-- Witness: on the concrete S4 state (speed magnitude 500 below the
window 1000, zero BEMF, gain 64, check 32) the call stores
IsBemfConsistent = false. -/
theorem sto_calc_avrg_mec_bemf_inconsistent_witness :
    (STO_CalcAvrgMecSpeed01Hz spdRelAccept stoBemfCexState).2.2.IsBemfConsistent
      = false := by
  exact sto_calc_avrg_mec_bemf_inconsistent spdRelAccept stoBemfCexState
    (by decide) (by decide) (by decide) (by decide) (by decide) (by decide)
    (by decide) (by decide) (by decide)

/-- STO_CalcAvrgElSpeedDpp of sto_speed_pos_fdbk.c (bit-shift path): rolls
the Ndpp-window sum forward by adding the newest FIFO entry and subtracting
the one that leaves the window (the oldest-element snapshot when the two
buffer sizes coincide, otherwise the entry (newest + N01Hz - Ndpp) reduced
modulo N01Hz), then publishes the shifted average. -/
def STO_CalcAvrgElSpeedDpp (s : STO_Handle) : STO_Handle :=
  let hIndexNew := s.Speed_Buffer_Index
  let hBufferSizeDiff := s.SpeedBufferSize01Hz - s.SpeedBufferSizedpp
  let wSum :=
    if hBufferSizeDiff = 0 then
      s.DppBufferSum + s.Speed_Buffer.getD hIndexNew 0 - s.SpeedBufferOldestEl
    else
      s.DppBufferSum + s.Speed_Buffer.getD hIndexNew 0 -
        s.Speed_Buffer.getD
          (if s.SpeedBufferSize01Hz ≤ hIndexNew + hBufferSizeDiff
           then hIndexNew + hBufferSizeDiff - s.SpeedBufferSize01Hz
           else hIndexNew + hBufferSizeDiff) 0
  { s with sSuper := { s.sSuper with
             hElSpeedDpp := STO_avgDpp_shift wSum s.SpeedBufferSizedppLOG }
           DppBufferSum := wSum }

/-- One push-then-average round: STO_Store_Rotor_Speed runs inside every
observer step and STO_CalcAvrgElSpeedDpp in the speed loop; the claim
considers them alternating. -/
def STO_speedRound (s : STO_Handle) (x : Int) : STO_Handle :=
  STO_CalcAvrgElSpeedDpp (STO_Store_Rotor_Speed s x)

/-- Sample number j (one-based) of a push history, zero for j = 0 or past
the end: the value the FIFO position holds when that push is the most
recent one to have written it. -/
def samp (l : List Int) (j : Nat) : Int :=
  if j = 0 then 0 else l.getD (j - 1) 0

/-- Most recent push index j in 1..k that wrote FIFO position i, where push
j writes position j mod N. -/
def lastWrite : Nat → Nat → Nat → Option Nat
  | 0, _, _ => none
  | (k + 1), n, i =>
      if (k + 1) % n = i then some (k + 1) else lastWrite k n i

/-- Specified content of FIFO position i after the pushes of history l:
the sample of the most recent push that wrote it, zero if none did. -/
def bufValSpec (l : List Int) (n i : Nat) : Int :=
  match lastWrite l.length n i with
  | some j => samp l j
  | none => 0

/-- Invariant tying an observer state to the history of pushed speed
samples: sizes configured, index at the newest position, every FIFO
position holding the sample of its last writer, the oldest-element
snapshot holding the sample N01Hz pushes back, and the rolling sum equal to
the sum of the last Ndpp samples. -/
def SpeedBufferInv (n d lg : Nat) (l : List Int) (s : STO_Handle) : Prop :=
  s.SpeedBufferSize01Hz = n ∧
  s.SpeedBufferSizedpp = d ∧
  s.SpeedBufferSizedppLOG = lg ∧
  s.Speed_Buffer.length = n ∧
  s.Speed_Buffer_Index = l.length % n ∧
  (∀ i, i < n → s.Speed_Buffer.getD i 0 = bufValSpec l n i) ∧
  s.SpeedBufferOldestEl = samp l (l.length - n) ∧
  s.DppBufferSum = Finset.sum (Finset.range d) (fun t => samp l (l.length - t)) ∧
  s.sSuper.hElSpeedDpp = wrap16 (s.DppBufferSum / 2 ^ lg)

/-- Successor of a value modulo n, written the way the FIFO advances its
index. -/
theorem succ_mod_eq (k n : Nat) (hn : 0 < n) :
    (k + 1) % n = if k % n + 1 = n then 0 else k % n + 1 := by
  have h1 : k % n < n := Nat.mod_lt k hn
  have hsplit : k = k % n + n * (k / n) := (Nat.mod_add_div k n).symm
  rcases Nat.lt_or_ge (k % n + 1) n with h | h
  · rw [if_neg (by omega)]
    conv_lhs => rw [hsplit]
    have : k % n + n * (k / n) + 1 = (k % n + 1) + (k / n) * n := by ring
    rw [this, Nat.add_mul_mod_self_right, Nat.mod_eq_of_lt h]
  · have h2 : k % n + 1 = n := by omega
    rw [if_pos h2]
    conv_lhs => rw [hsplit]
    have : k % n + n * (k / n) + 1 = n + (k / n) * n := by
      rw [Nat.mul_comm n (k / n)]
      omega
    rw [this, Nat.add_mul_mod_self_right, Nat.mod_self]

/-- Two numbers within a window of length n that agree modulo n are
equal. -/
theorem eq_of_mod_eq_of_close {j k n : Nat} (hn : 0 < n) (h1 : j ≤ k)
    (h2 : k < j + n) (h : j % n = k % n) : j = k := by
  have hd : n ∣ k - j := (Nat.modEq_iff_dvd' h1).mp h
  rcases Nat.eq_zero_or_pos (k - j) with hz | hp
  · omega
  · have := Nat.le_of_dvd hp hd
    omega

/-- lastWrite finds the unique in-window writer of its position. -/
theorem lastWrite_eq_some {n : Nat} (hn : 0 < n) :
    ∀ k j, 1 ≤ j → j ≤ k → k < j + n → lastWrite k n (j % n) = some j := by
  intro k
  induction k with
  | zero => intro j h1 h2 _; omega
  | succ m ih =>
    intro j h1 h2 h3
    rcases eq_or_lt_of_le h2 with he | hlt
    · unfold lastWrite
      rw [if_pos (by rw [he]), he]
    · have hne : ¬ (m + 1) % n = j % n := by
        intro hcontra
        have := eq_of_mod_eq_of_close hn (by omega : j ≤ m + 1) h3 hcontra.symm
        omega
      unfold lastWrite
      rw [if_neg hne]
      exact ih j h1 (by omega) (by omega)

/-- lastWrite is none when no in-range push wrote the position. -/
theorem lastWrite_eq_none {n : Nat} :
    ∀ k i, (∀ j, 1 ≤ j → j ≤ k → j % n ≠ i) → lastWrite k n i = none := by
  intro k
  induction k with
  | zero => intro i _; rfl
  | succ m ih =>
    intro i h
    unfold lastWrite
    rw [if_neg (h (m + 1) (by omega) (by omega))]
    exact ih i (fun j h1 h2 => h j h1 (by omega))

/-- What lastWrite returns is a genuine in-range writer. -/
theorem lastWrite_spec {n : Nat} :
    ∀ k i j, lastWrite k n i = some j → 1 ≤ j ∧ j ≤ k ∧ j % n = i := by
  intro k
  induction k with
  | zero => intro i j h; exact absurd h (by unfold lastWrite; simp)
  | succ m ih =>
    intro i j h
    unfold lastWrite at h
    by_cases hc : (m + 1) % n = i
    · rw [if_pos hc] at h
      obtain rfl : m + 1 = j := Option.some.inj h
      exact ⟨by omega, by omega, hc⟩
    · rw [if_neg hc] at h
      have hr := ih i j h
      exact ⟨hr.1, by omega, hr.2.2⟩

/-- Appending a sample does not change earlier samples. -/
theorem samp_append (l : List Int) (x : Int) (j : Nat) (h : j ≤ l.length) :
    samp (l ++ [x]) j = samp l j := by
  unfold samp
  split_ifs with h0
  · rfl
  · have hlt : j - 1 < l.length := by omega
    simp [List.getD, List.getElem?_append_left hlt]

/-- The appended sample is sample number length plus one. -/
theorem samp_append_last (l : List Int) (x : Int) :
    samp (l ++ [x]) (l.length + 1) = x := by
  unfold samp
  rw [if_neg (by omega)]
  simp [List.getD]

/-- Field effect of STO_Store_Rotor_Speed: everything except the FIFO
triple is unchanged, and index, snapshot and buffer advance as written. -/
theorem store_fields (s : STO_Handle) (x : Int) :
    (STO_Store_Rotor_Speed s x).SpeedBufferSize01Hz = s.SpeedBufferSize01Hz ∧
    (STO_Store_Rotor_Speed s x).SpeedBufferSizedpp = s.SpeedBufferSizedpp ∧
    (STO_Store_Rotor_Speed s x).SpeedBufferSizedppLOG = s.SpeedBufferSizedppLOG ∧
    (STO_Store_Rotor_Speed s x).DppBufferSum = s.DppBufferSum ∧
    (STO_Store_Rotor_Speed s x).Speed_Buffer_Index
      = (if s.Speed_Buffer_Index + 1 = s.SpeedBufferSize01Hz then 0
         else s.Speed_Buffer_Index + 1) ∧
    (STO_Store_Rotor_Speed s x).SpeedBufferOldestEl
      = s.Speed_Buffer.getD
          (if s.Speed_Buffer_Index + 1 = s.SpeedBufferSize01Hz then 0
           else s.Speed_Buffer_Index + 1) 0 ∧
    (STO_Store_Rotor_Speed s x).Speed_Buffer
      = s.Speed_Buffer.set
          (if s.Speed_Buffer_Index + 1 = s.SpeedBufferSize01Hz then 0
           else s.Speed_Buffer_Index + 1) x :=
  ⟨rfl, rfl, rfl, rfl, rfl, rfl, rfl⟩

/-- Field effect of STO_CalcAvrgElSpeedDpp: only the rolling sum and the
published average change. -/
theorem calcAvrg_fields (u : STO_Handle) :
    (STO_CalcAvrgElSpeedDpp u).SpeedBufferSize01Hz = u.SpeedBufferSize01Hz ∧
    (STO_CalcAvrgElSpeedDpp u).SpeedBufferSizedpp = u.SpeedBufferSizedpp ∧
    (STO_CalcAvrgElSpeedDpp u).SpeedBufferSizedppLOG = u.SpeedBufferSizedppLOG ∧
    (STO_CalcAvrgElSpeedDpp u).Speed_Buffer = u.Speed_Buffer ∧
    (STO_CalcAvrgElSpeedDpp u).Speed_Buffer_Index = u.Speed_Buffer_Index ∧
    (STO_CalcAvrgElSpeedDpp u).SpeedBufferOldestEl = u.SpeedBufferOldestEl :=
  ⟨rfl, rfl, rfl, rfl, rfl, rfl⟩

/-- The rolling sum written by STO_CalcAvrgElSpeedDpp, spelled out. -/
theorem calcAvrg_sum (u : STO_Handle) :
    (STO_CalcAvrgElSpeedDpp u).DppBufferSum =
      if u.SpeedBufferSize01Hz - u.SpeedBufferSizedpp = 0 then
        u.DppBufferSum + u.Speed_Buffer.getD u.Speed_Buffer_Index 0
          - u.SpeedBufferOldestEl
      else
        u.DppBufferSum + u.Speed_Buffer.getD u.Speed_Buffer_Index 0
          - u.Speed_Buffer.getD
              (if u.SpeedBufferSize01Hz
                  ≤ u.Speed_Buffer_Index + (u.SpeedBufferSize01Hz - u.SpeedBufferSizedpp)
               then u.Speed_Buffer_Index + (u.SpeedBufferSize01Hz - u.SpeedBufferSizedpp)
                  - u.SpeedBufferSize01Hz
               else u.Speed_Buffer_Index + (u.SpeedBufferSize01Hz - u.SpeedBufferSizedpp)) 0 :=
  rfl

/-- STO_CalcAvrgElSpeedDpp publishes exactly the shifted new rolling sum. -/
theorem calcAvrg_publishes (u : STO_Handle) :
    (STO_CalcAvrgElSpeedDpp u).sSuper.hElSpeedDpp
      = STO_avgDpp_shift (STO_CalcAvrgElSpeedDpp u).DppBufferSum
          u.SpeedBufferSizedppLOG := rfl

/-- Appending a sample leaves the specified content of positions its push
does not write unchanged. -/
theorem bufValSpec_append_ne (l : List Int) (x : Int) (n i : Nat)
    (hne : (l.length + 1) % n ≠ i) :
    bufValSpec (l ++ [x]) n i = bufValSpec l n i := by
  unfold bufValSpec
  have hlen : (l ++ [x]).length = l.length + 1 := by simp
  rw [hlen]
  have hlw : lastWrite (l.length + 1) n i = lastWrite l.length n i := by
    rw [show lastWrite (l.length + 1) n i
        = if (l.length + 1) % n = i then some (l.length + 1)
          else lastWrite l.length n i from rfl, if_neg hne]
  rw [hlw]
  cases hcase : lastWrite l.length n i with
  | none => rfl
  | some j =>
    have hj := lastWrite_spec l.length i j hcase
    exact samp_append l x j (by omega)

/-- The position the appended push writes holds the appended sample. -/
theorem bufValSpec_append_eq (l : List Int) (x : Int) (n : Nat) :
    bufValSpec (l ++ [x]) n ((l.length + 1) % n) = x := by
  unfold bufValSpec
  have hlen : (l ++ [x]).length = l.length + 1 := by simp
  rw [hlen]
  have hlw : lastWrite (l.length + 1) n ((l.length + 1) % n)
      = some (l.length + 1) := by
    rw [show lastWrite (l.length + 1) n ((l.length + 1) % n)
        = if (l.length + 1) % n = (l.length + 1) % n then some (l.length + 1)
          else lastWrite l.length n ((l.length + 1) % n) from rfl, if_pos rfl]
  rw [hlw]
  exact samp_append_last l x

/-- The position the next push will write currently holds the sample from
n pushes back (zero while the FIFO has not yet wrapped). -/
theorem bufValSpec_next_oldest (l : List Int) (n : Nat) (hn : 0 < n) :
    bufValSpec l n ((l.length + 1) % n) = samp l (l.length + 1 - n) := by
  rcases Nat.lt_or_ge l.length n with hsmall | hbig
  · have hnone : lastWrite l.length n ((l.length + 1) % n) = none := by
      apply lastWrite_eq_none
      intro j h1 h2 hcontra
      have hj : j % n = j := Nat.mod_eq_of_lt (by omega)
      rcases Nat.lt_or_ge (l.length + 1) n with hlt | hge
      · rw [Nat.mod_eq_of_lt hlt] at hcontra
        omega
      · have : l.length + 1 = n := by omega
        rw [this, Nat.mod_self] at hcontra
        omega
    unfold bufValSpec
    rw [hnone]
    have : l.length + 1 - n = 0 := by omega
    rw [this]
    rfl
  · have hj : (l.length + 1 - n) % n = (l.length + 1) % n := by
      have : l.length + 1 - n + n = l.length + 1 := by omega
      calc (l.length + 1 - n) % n = (l.length + 1 - n + n) % n :=
            (Nat.add_mod_right _ _).symm
        _ = (l.length + 1) % n := by rw [this]
    have hsome : lastWrite l.length n ((l.length + 1) % n)
        = some (l.length + 1 - n) := by
      rw [← hj]
      exact lastWrite_eq_some hn l.length (l.length + 1 - n)
        (by omega) (by omega) (by omega)
    unfold bufValSpec
    rw [hsome]

/-- A value below 2n reduces modulo n by at most one subtraction. -/
theorem mod_of_lt_two_mul (a n : Nat) (hn : 0 < n) (h : a < 2 * n) :
    a % n = if n ≤ a then a - n else a := by
  split_ifs with hna
  · rw [Nat.mod_eq_sub_mod hna]
    exact Nat.mod_eq_of_lt (by omega)
  · exact Nat.mod_eq_of_lt (by omega)

/-- The FIFO position of the sample leaving the Ndpp window holds that
sample (zero while fewer than Ndpp pushes have happened), provided the
window is strictly inside the buffer. -/
theorem bufValSpec_leaving (l : List Int) (n d : Nat) (hn : 0 < n)
    (hd : 1 ≤ d) (hdn : d < n) :
    bufValSpec l n ((l.length + 1 + (n - d)) % n) = samp l (l.length + 1 - d) := by
  rcases Nat.lt_or_ge l.length d with hsmall | hbig
  · have hnone : lastWrite l.length n ((l.length + 1 + (n - d)) % n) = none := by
      apply lastWrite_eq_none
      intro j h1 h2 hcontra
      have hj : j % n = j := Nat.mod_eq_of_lt (by omega)
      rcases Nat.lt_or_ge (l.length + 1 + (n - d)) n with hlt | hge
      · rw [Nat.mod_eq_of_lt hlt] at hcontra
        omega
      · have hlt2 : l.length + 1 + (n - d) < 2 * n := by omega
        rw [mod_of_lt_two_mul _ n hn hlt2, if_pos hge] at hcontra
        omega
    unfold bufValSpec
    rw [hnone]
    have : l.length + 1 - d = 0 := by omega
    rw [this]
    rfl
  · have hjmod : (l.length + 1 - d) % n = (l.length + 1 + (n - d)) % n := by
      have : l.length + 1 - d + n = l.length + 1 + (n - d) := by omega
      calc (l.length + 1 - d) % n = (l.length + 1 - d + n) % n :=
            (Nat.add_mod_right _ _).symm
        _ = (l.length + 1 + (n - d)) % n := by rw [this]
    have hsome : lastWrite l.length n ((l.length + 1 + (n - d)) % n)
        = some (l.length + 1 - d) := by
      rw [← hjmod]
      exact lastWrite_eq_some hn l.length (l.length + 1 - d)
        (by omega) (by omega) (by omega)
    unfold bufValSpec
    rw [hsome]

/-- Rolling the window one push forward: the new window sum is the old one
plus the new sample minus the sample that leaves. -/
theorem sum_window_shift (l : List Int) (x : Int) (d : Nat) (hd : 1 ≤ d) :
    Finset.sum (Finset.range d) (fun t => samp (l ++ [x]) (l.length + 1 - t))
      = Finset.sum (Finset.range d) (fun t => samp l (l.length - t))
        + x - samp l (l.length + 1 - d) := by
  obtain ⟨m, rfl⟩ : ∃ m, d = m + 1 := ⟨d - 1, by omega⟩
  rw [Finset.sum_range_succ' (fun t => samp (l ++ [x]) (l.length + 1 - t)) m]
  have h2 : samp (l ++ [x]) (l.length + 1 - 0) = x := by
    simpa using samp_append_last l x
  have h1 : ∀ t ∈ Finset.range m,
      samp (l ++ [x]) (l.length + 1 - (t + 1)) = samp l (l.length - t) := by
    intro t _
    have he : l.length + 1 - (t + 1) = l.length - t := by omega
    rw [he]
    exact samp_append l x _ (by omega)
  rw [Finset.sum_congr rfl h1, h2]
  rw [Finset.sum_range_succ (fun t => samp l (l.length - t)) m]
  have h3 : l.length + 1 - (m + 1) = l.length - m := by omega
  rw [h3]
  ring

/-- One push-then-average round advances the buffer invariant by one
sample of history, in both the equal-sizes and the strict-window cases. -/
theorem speedRound_inv (n d lg : Nat) (hd : 1 ≤ d) (hdn : d ≤ n)
    (l : List Int) (x : Int) (s : STO_Handle)
    (hinv : SpeedBufferInv n d lg l s) :
    SpeedBufferInv n d lg (l ++ [x]) (STO_speedRound s x) := by
  obtain ⟨h01, hdp, hlg, hlen, hidx, hbuf, hold, hsum, hpub⟩ := hinv
  have hn : 0 < n := by omega
  have hidxAlt : (l.length + 1) % n < n := Nat.mod_lt _ hn
  have hidxA : (if s.Speed_Buffer_Index + 1 = s.SpeedBufferSize01Hz then 0
      else s.Speed_Buffer_Index + 1) = (l.length + 1) % n := by
    rw [hidx, h01, succ_mod_eq l.length n hn]
  obtain ⟨hs1, hs2, hs3, hs4, hs5, hs6, hs7⟩ := store_fields s x
  rw [hidxA] at hs5 hs6 hs7
  set w := STO_Store_Rotor_Speed s x with hw
  obtain ⟨hc1, hc2, hc3, hc4, hc5, hc6⟩ := calcAvrg_fields w
  have hcsum := calcAvrg_sum w
  have hwlen : w.Speed_Buffer.length = n := by rw [hs7, List.length_set, hlen]
  have hwbuf_new : w.Speed_Buffer.getD ((l.length + 1) % n) 0 = x := by
    rw [hs7]
    have hlt : (l.length + 1) % n < s.Speed_Buffer.length := by omega
    simp [List.getD, List.getElem?_set_self hlt]
  have hwbuf_ne : ∀ i, i ≠ (l.length + 1) % n →
      w.Speed_Buffer.getD i 0 = s.Speed_Buffer.getD i 0 := by
    intro i hne
    rw [hs7]
    simp [List.getD, List.getElem?_set_ne (Ne.symm hne)]
  have hlen2 : (l ++ [x]).length = l.length + 1 := by simp
  unfold SpeedBufferInv STO_speedRound
  rw [← hw]
  refine ⟨?_, ?_, ?_, ?_, ?_, ?_, ?_, ?_, ?_⟩
  · rw [hc1, hs1, h01]
  · rw [hc2, hs2, hdp]
  · rw [hc3, hs3, hlg]
  · rw [hc4, hwlen]
  · rw [hc5, hs5, hlen2]
  · intro i hi
    rw [hc4]
    by_cases hie : i = (l.length + 1) % n
    · subst hie
      rw [hwbuf_new]
      exact (bufValSpec_append_eq l x n).symm
    · rw [hwbuf_ne i hie, hbuf i hi]
      exact (bufValSpec_append_ne l x n i (fun h => hie h.symm)).symm
  · rw [hc6, hs6, hbuf _ hidxAlt, bufValSpec_next_oldest l n hn, hlen2]
    exact (samp_append l x (l.length + 1 - n) (by omega)).symm
  · rw [hcsum, hs1, hs2, hs4, hs5, hs6, h01, hdp, hwbuf_new, hlen2,
      sum_window_shift l x d hd, ← hsum]
    by_cases hnd : n - d = 0
    · rw [if_pos hnd]
      have hnd2 : l.length + 1 - n = l.length + 1 - d := by omega
      rw [hbuf _ hidxAlt, bufValSpec_next_oldest l n hn, hnd2]
    · rw [if_neg hnd]
      have hdlt : d < n := by omega
      have hplt : (l.length + 1) % n + (n - d) < 2 * n := by omega
      have hp : (if n ≤ (l.length + 1) % n + (n - d)
          then (l.length + 1) % n + (n - d) - n
          else (l.length + 1) % n + (n - d))
          = (l.length + 1 + (n - d)) % n := by
        rw [← mod_of_lt_two_mul _ n hn hplt]
        exact Nat.mod_add_mod (l.length + 1) n (n - d)
      rw [hp]
      have hpne : (l.length + 1 + (n - d)) % n ≠ (l.length + 1) % n := by
        intro hcontra
        have heq := eq_of_mod_eq_of_close hn
          (by omega : l.length + 1 ≤ l.length + 1 + (n - d)) (by omega) hcontra.symm
        omega
      rw [hwbuf_ne _ hpne, hbuf _ (Nat.mod_lt _ hn),
        bufValSpec_leaving l n d hn hd hdlt]
  · rw [calcAvrg_publishes w, hs3, hlg]
    rfl

/-- The buffer invariant holds after any number of push-then-average
rounds from a state in which it holds for the empty history. -/
theorem speedRound_foldl_inv (n d lg : Nat) (hd : 1 ≤ d) (hdn : d ≤ n)
    (s0 : STO_Handle) (hinit : SpeedBufferInv n d lg [] s0) (l : List Int) :
    SpeedBufferInv n d lg l (List.foldl STO_speedRound s0 l) := by
  induction l using List.reverseRecOn with
  | nil => simpa using hinit
  | append_singleton m y ih =>
    rw [List.foldl_append]
    simp only [List.foldl_cons, List.foldl_nil]
    exact speedRound_inv n d lg hd hdn m y _ ih

/-- Samples of a bounded history are bounded (zero-padded positions
included). -/
theorem samp_bounds (l : List Int)
    (hb : ∀ y ∈ l, -32768 ≤ y ∧ y ≤ 32767) (j : Nat) :
    -32768 ≤ samp l j ∧ samp l j ≤ 32767 := by
  unfold samp
  split_ifs with h0
  · omega
  · have hg : l.getD (j - 1) 0 = (l[j - 1]?).getD 0 := by simp [List.getD]
    rw [hg]
    cases hel : l[j - 1]? with
    | none => simp
    | some v =>
      simp only [Option.getD_some]
      exact hb v (List.getElem?_mem hel)

/-- C5: starting from a cleared speed FIFO, after any k greater than or
equal to Ndpp alternating pushes (STO_Store_Rotor_Speed) and averaging
calls (STO_CalcAvrgElSpeedDpp), DppBufferSum equals the sum of the Ndpp
most recently stored samples, and the published hElSpeedDpp equals that sum
divided by Ndpp (floor division by the power-of-two buffer size); this
covers both the SpeedBufferSize01Hz equal to Ndpp case, which consumes the
SpeedBufferOldestEl snapshot, and the strictly larger case, which consumes
the entry at (newest index + (N01Hz - Ndpp)) mod N01Hz. -/
theorem sto_rolling_sum_and_average (n d lg : Nat) (hd : 1 ≤ d) (hdn : d ≤ n)
    (hpow : d = 2 ^ lg) (s0 : STO_Handle)
    (hinit : SpeedBufferInv n d lg [] s0) (l : List Int) (hk : d ≤ l.length)
    (hb : ∀ y ∈ l, -32768 ≤ y ∧ y ≤ 32767) :
    (List.foldl STO_speedRound s0 l).DppBufferSum
      = Finset.sum (Finset.range d) (fun t => samp l (l.length - t)) ∧
    (List.foldl STO_speedRound s0 l).sSuper.hElSpeedDpp
      = Finset.sum (Finset.range d) (fun t => samp l (l.length - t)) / (d : Int) := by
  obtain ⟨_, _, _, _, _, _, _, hsum, hpub⟩ :=
    speedRound_foldl_inv n d lg hd hdn s0 hinit l
  refine ⟨hsum, ?_⟩
  have hd2 : ((d : Nat) : Int) = (2 : Int) ^ lg := by
    rw [hpow]
    push_cast
    ring
  rw [hpub, hsum, ← hd2]
  have hdpos : (0 : Int) < (d : Int) := by exact_mod_cast hd
  set S := Finset.sum (Finset.range d) (fun t => samp l (l.length - t)) with hS
  have hlo : (-32768 : Int) * (d : Int) ≤ S := by
    have h1 : Finset.sum (Finset.range d) (fun _ => (-32768 : Int)) ≤ S :=
      Finset.sum_le_sum (fun t _ => (samp_bounds l hb (l.length - t)).1)
    rw [Finset.sum_const, Finset.card_range, nsmul_eq_mul] at h1
    calc (-32768 : Int) * (d : Int) = (d : Int) * (-32768) := by ring
      _ ≤ S := h1
  have hhi : S ≤ (32767 : Int) * (d : Int) := by
    have h1 : S ≤ Finset.sum (Finset.range d) (fun _ => (32767 : Int)) :=
      Finset.sum_le_sum (fun t _ => (samp_bounds l hb (l.length - t)).2)
    rw [Finset.sum_const, Finset.card_range, nsmul_eq_mul] at h1
    calc S ≤ (d : Int) * 32767 := h1
      _ = (32767 : Int) * (d : Int) := by ring
  have hql : (-32768 : Int) ≤ S / (d : Int) := by
    have h := Int.ediv_le_ediv hdpos hlo
    rwa [Int.mul_ediv_cancel _ (by omega : (d : Int) ≠ 0)] at h
  have hqu : S / (d : Int) ≤ 32767 := by
    have h := Int.ediv_le_ediv hdpos hhi
    rwa [Int.mul_ediv_cancel _ (by omega : (d : Int) ≠ 0)] at h
  exact wrap16_eq_self hql hqu

/-- Witness: three rounds on the cleared two-entry FIFO with window two;
the rolling sum is the sum of the last two samples, seven plus minus four,
and the published average is their floor average. -/
theorem sto_rolling_sum_and_average_witness :
    (List.foldl STO_speedRound stoZeroState [5, 7, -4]).DppBufferSum = 3 ∧
    (List.foldl STO_speedRound stoZeroState [5, 7, -4]).sSuper.hElSpeedDpp = 1 := by
  have hinit : SpeedBufferInv 2 2 1 [] stoZeroState := by
    unfold SpeedBufferInv
    refine ⟨rfl, rfl, rfl, rfl, rfl, ?_, rfl, by decide, by decide⟩
    intro i hi
    interval_cases i <;> rfl
  have h := sto_rolling_sum_and_average 2 2 1 (by decide) (by decide) (by decide)
    stoZeroState hinit [5, 7, -4] (by decide) (by decide)
  constructor
  · rw [h.1]
    decide
  · rw [h.2]
    decide

end FOC
